import Mathlib

/-!
FlappyBird: a shallow embedding of `flappybird.go`.

The embedding follows `src/flappybird.go` function by function.

* `float64` fields (`birdY`, `velocity`, `Pipe.X`, `Pipe.GapY`) are rationals.  Every value
  the program computes from `NewGame` is a multiple of `0.5` of small magnitude, on which
  `float64` arithmetic is exact, so the rational model agrees with the machine there.
* Go `int` fields (`score`, `highScore`, `frameCount`) are `Int`.  They change by at most one
  per tick, so the 64-bit range is out of reach of any run and no wrap-around is modelled.
* `gameState` stays a `String`, as in the source.
* `g.frameCount%180 == 0` is divisibility by 180, whatever the sign convention of `%`.
* The file `highscore.txt` is an `Option String` (`none`: the file cannot be read).
* The key edges, the random draw and the outcome of the file write are inputs of a tick.
* `image.Rect`, `Rectangle.Overlaps`, `strconv.Atoi` and `strconv.Itoa` come from the Go
  standard library and are transcribed from its sources.
-/

namespace FlappyBird

/-! ## Constants (flappybird.go, lines 18-26) -/

def screenWidth : Int := 320
def screenHeight : Int := 480
def birdSize : Int := 20
def gravity : ℚ := 1 / 2
def jumpVelocity : ℚ := -8
def pipeWidth : Int := 60
def pipeGap : Int := 100

/-! ## Data model (lines 28-42) -/

structure Pipe where
  X : ℚ
  GapY : ℚ
  Passed : Bool
  deriving DecidableEq, Repr

structure Game where
  birdY : ℚ
  velocity : ℚ
  pipes : List Pipe
  score : Int
  highScore : Int
  gameState : String
  frameCount : Int
  deriving DecidableEq, Repr

/-! ## Go standard library: `strconv` -/

/-- The decimal digits of a natural number, most significant first (`"0"` for zero). -/
def natDigits (n : Nat) : List Char :=
  if n = 0 then ['0'] else ((Nat.digits 10 n).reverse.map fun d => Char.ofNat (48 + d))

/-- Go `strconv.Itoa`: the base-10 text of an integer, with a leading `-` when negative. -/
def Itoa (n : Int) : String :=
  if n < 0 then String.mk ('-' :: natDigits n.natAbs) else String.mk (natDigits n.natAbs)

/-- The digit loop of `strconv.Atoi`: `n = n*10 + (ch - '0')`, failing on a byte that is not
a decimal digit. -/
def parseDigits : List Char → Nat → Option Nat
  | [], acc => some acc
  | c :: cs, acc =>
    if 48 ≤ c.toNat ∧ c.toNat ≤ 57 then parseDigits cs (acc * 10 + (c.toNat - 48)) else none

/-- Go `strconv.Atoi` on a 64-bit platform: an optional sign (`s[0] == '-' || s[0] == '+'`),
then at least one decimal digit and nothing else; a value outside the `int` range is an error.
`none` stands for `err != nil`. -/
def Atoi (s : String) : Option Int :=
  let body : List Char :=
    if s.data.head? = some '-' ∨ s.data.head? = some '+' then s.data.tail else s.data
  if body = [] then none
  else
    match parseDigits body 0 with
    | none => none
    | some v =>
      if s.data.head? = some '-' then
        (if v ≤ 2 ^ 63 then some (-(v : Int)) else none)
      else
        (if v < 2 ^ 63 then some (v : Int) else none)

/-! ## The high-score store (lines 44-61) -/

/-- The file system as the game sees it: the content of `highscore.txt` (`none` when
`os.ReadFile` fails) and the trace of the values handed to `saveHighScore`, oldest first. -/
structure Store where
  file : Option String
  saved : List Int
  deriving DecidableEq, Repr

/-- Go `loadHighScore`: 0 when the file cannot be read or its content does not parse. -/
def loadHighScore (st : Store) : Int :=
  match st.file with
  | none => 0
  | some content =>
    match Atoi content with
    | none => 0
    | some highScore => highScore

/-- How a call of Go `os.WriteFile` ends.  It opens the file with
`O_WRONLY|O_CREATE|O_TRUNC`, writes the data and closes the file:
* `ok`: no error, the file holds the data;
* `openFailed`: the open fails, the file is as it was before the call;
* `writeFailed n`: the open has emptied the file and only the first `n` bytes of the data
  are in it when the write or the close reports the error. -/
inductive WriteResult where
  | ok
  | openFailed
  | writeFailed (n : Nat)
  deriving DecidableEq, Repr

/-- Go `saveHighScore`: `os.WriteFile` of the text `Itoa highScore`; an error is logged and
the game goes on with whatever the failed call left in the file. -/
def saveHighScore (w : WriteResult) (highScore : Int) (st : Store) : Store :=
  { file :=
      match w with
      | WriteResult.ok => some (Itoa highScore)
      | WriteResult.openFailed => st.file
      | WriteResult.writeFailed n => some (String.mk ((Itoa highScore).data.take n))
    saved := st.saved ++ [highScore] }

/-- Go `NewGame`: the fields not listed in the composite literal take their zero value. -/
def NewGame (st : Store) : Game :=
  { birdY := (screenHeight : ℚ) / 2
    velocity := 0
    pipes := []
    score := 0
    highScore := loadHighScore st
    gameState := "start"
    frameCount := 0 }

/-! ## Go standard library: `image` -/

/-- Go `int(x)` for a `float64`: the fraction is discarded (truncation toward zero). -/
def goInt (x : ℚ) : Int := if 0 ≤ x then ⌊x⌋ else ⌈x⌉

/-- Go `image.Rectangle`: `Min` and `Max` corners. -/
structure Rectangle where
  MinX : Int
  MinY : Int
  MaxX : Int
  MaxY : Int
  deriving DecidableEq, Repr

/-- Go `image.Rect`: the corners are swapped where needed so that `Min ≤ Max`. -/
def Rect (x0 y0 x1 y1 : Int) : Rectangle :=
  { MinX := if x0 > x1 then x1 else x0
    MinY := if y0 > y1 then y1 else y0
    MaxX := if x0 > x1 then x0 else x1
    MaxY := if y0 > y1 then y0 else y1 }

/-- Go `Rectangle.Empty`. -/
def Rectangle.Empty (r : Rectangle) : Bool :=
  decide (r.MinX ≥ r.MaxX) || decide (r.MinY ≥ r.MaxY)

/-- Go `Rectangle.Overlaps`: both rectangles are non-empty and their interiors meet. -/
def Rectangle.Overlaps (r s : Rectangle) : Bool :=
  !r.Empty && !s.Empty &&
    decide (r.MinX < s.MaxX) && decide (s.MinX < r.MaxX) &&
    decide (r.MinY < s.MaxY) && decide (s.MinY < r.MaxY)

/-! ## filterPipes (lines 148-156) -/

/-- Go `filterPipes`: keeps, in order, the pipes with `p.X + pipeWidth > 0`. -/
def filterPipes : List Pipe → List Pipe
  | [] => []
  | p :: pipes =>
    if p.X + (pipeWidth : ℚ) > 0 then p :: filterPipes pipes else filterPipes pipes

/-! ## Game.Update (lines 73-146) -/

/-- What a tick reads from outside the game: the two key edges, the value `rand.Intn(3)`
returns if it is called, and how `os.WriteFile` ends if it is called. -/
structure Input where
  enter : Bool
  space : Bool
  rnd : Fin 3
  write : WriteResult
  deriving DecidableEq, Repr

def birdRect (birdY : ℚ) : Rectangle :=
  Rect (screenWidth / 2 - birdSize / 2) (goInt (birdY - ((birdSize / 2 : Int) : ℚ)))
    (screenWidth / 2 + birdSize / 2) (goInt (birdY + ((birdSize / 2 : Int) : ℚ)))

def upperPipeRect (pipe : Pipe) : Rectangle :=
  Rect (goInt pipe.X) 0
    (goInt (pipe.X + (pipeWidth : ℚ))) (goInt (pipe.GapY - ((pipeGap / 2 : Int) : ℚ)))

def lowerPipeRect (pipe : Pipe) : Rectangle :=
  Rect (goInt pipe.X) (goInt (pipe.GapY + ((pipeGap / 2 : Int) : ℚ)))
    (goInt (pipe.X + (pipeWidth : ℚ))) screenHeight

/-- The mutable part of the game the loop over `g.pipes` touches. -/
structure LoopState where
  done : List Pipe
  score : Int
  gameState : String
  deriving DecidableEq, Repr

/-- One iteration of the loop `for i := range g.pipes` (lines 106-131). -/
def pipeStep (birdY : ℚ) (pipe : Pipe) (ls : LoopState) : LoopState :=
  let pipe : Pipe := { pipe with X := pipe.X - 2 }
  let scored : Bool := !pipe.Passed && decide (pipe.X < ((screenWidth / 2 - pipeWidth / 2 : Int) : ℚ))
  let pipe : Pipe := if scored then { pipe with Passed := true } else pipe
  let score : Int := if scored then ls.score + 1 else ls.score
  let hit : Bool :=
    (birdRect birdY).Overlaps (upperPipeRect pipe) || (birdRect birdY).Overlaps (lowerPipeRect pipe)
  { done := ls.done ++ [pipe]
    score := score
    gameState := if hit then "gameover" else ls.gameState }

/-- The loop `for i := range g.pipes`, front to back. -/
def pipeLoop (birdY : ℚ) : List Pipe → LoopState → LoopState
  | [], ls => ls
  | pipe :: rest, ls => pipeLoop birdY rest (pipeStep birdY pipe ls)

/-- The `"play"` case of `Update` (lines 82-134); `g.frameCount` is already incremented. -/
def updatePlay (inp : Input) (g : Game) : Game :=
  let velocity := g.velocity + gravity
  let birdY := g.birdY + velocity
  let velocity := if inp.space then jumpVelocity else velocity
  let gameState := if birdY > ((screenHeight - birdSize : Int) : ℚ) then "gameover" else g.gameState
  let velocity := if birdY < 0 then 0 else velocity
  let birdY := if birdY < 0 then 0 else birdY
  let pipes :=
    if g.frameCount % 180 = 0 then
      g.pipes ++ [{ X := (screenWidth : ℚ)
                    GapY := ((screenHeight / 2 : Int) : ℚ) + ((((inp.rnd.val : Int) - 1) * 60 : Int) : ℚ)
                    Passed := false }]
    else g.pipes
  let ls := pipeLoop birdY pipes { done := [], score := g.score, gameState := gameState }
  { g with
    birdY := birdY
    velocity := velocity
    pipes := filterPipes ls.done
    score := ls.score
    gameState := ls.gameState }

/-- The whole system: the game and the store it persists to. -/
structure Sys where
  g : Game
  store : Store
  deriving DecidableEq, Repr

/-- The `"gameover"` case of `Update` (lines 137-143). -/
def updateGameOver (inp : Input) (s : Sys) : Sys :=
  let s : Sys :=
    if s.g.score > s.g.highScore then
      { g := { s.g with highScore := s.g.score }
        store := saveHighScore inp.write s.g.score s.store }
    else s
  if inp.enter then { s with g := NewGame s.store } else s

/-- Go `Game.Update`: one tick. -/
def Update (inp : Input) (s : Sys) : Sys :=
  let g : Game := { s.g with frameCount := s.g.frameCount + 1 }
  if g.gameState = "start" then
    (if inp.enter then { s with g := { g with gameState := "play" } } else { s with g := g })
  else if g.gameState = "play" then
    { s with g := updatePlay inp g }
  else if g.gameState = "gameover" then
    updateGameOver inp { s with g := g }
  else { s with g := g }

/-! ## Vocabulary of the specification

The functions below only name parts of a `"play"` tick so that statements can speak of them;
`pipeLoop_eq` and `Update_play` connect them to the code above. -/

/-- The pipe as the loop body leaves it: moved left by 2, marked once its centre
`X + pipeWidth/2` is left of the bird's column `screenWidth/2`. -/
def advancePipe (p : Pipe) : Pipe :=
  { X := p.X - 2
    GapY := p.GapY
    Passed := p.Passed || decide (p.X - 2 + (pipeWidth : ℚ) / 2 < (screenWidth : ℚ) / 2) }

/-- Whether the loop body awards a point for this pipe. -/
def awardsPoint (p : Pipe) : Bool :=
  !p.Passed && decide (p.X - 2 + (pipeWidth : ℚ) / 2 < (screenWidth : ℚ) / 2)

/-- Whether the loop body finds the bird's rectangle overlapping one of the pipe's two. -/
def collides (birdY : ℚ) (p : Pipe) : Bool :=
  (birdRect birdY).Overlaps (upperPipeRect (advancePipe p)) ||
    (birdRect birdY).Overlaps (lowerPipeRect (advancePipe p))

/-- The pipes the loop of a `"play"` tick runs over: `g.pipes` after the append of lines
98-103, for the game `g` as it stands before the tick. -/
def pipesAfterSpawn (inp : Input) (g : Game) : List Pipe :=
  if (g.frameCount + 1) % 180 = 0 then
    g.pipes ++ [{ X := (screenWidth : ℚ)
                  GapY := ((screenHeight / 2 : Int) : ℚ) + ((((inp.rnd.val : Int) - 1) * 60 : Int) : ℚ)
                  Passed := false }]
  else g.pipes

/-- The bird's position when the loop over the pipes runs: integrated, then clamped at 0. -/
def birdYAfter (g : Game) : ℚ :=
  if g.birdY + (g.velocity + gravity) < 0 then 0 else g.birdY + (g.velocity + gravity)


/-! ## Boxes in the coordinates of the specification -/

/-- An axis-aligned box: `x` from `x0` to `x1`, `y` from `y0` to `y1`. -/
structure Box (α : Type) where
  x0 : α
  y0 : α
  x1 : α
  y1 : α

/-- Two boxes overlap with positive area: on each axis the larger of the two lower ends is
strictly below the smaller of the two upper ends. -/
def Box.overlaps {α : Type} [LinearOrder α] (a b : Box α) : Bool :=
  decide (max a.x0 b.x0 < min a.x1 b.x1) && decide (max a.y0 b.y0 < min a.y1 b.y1)

/-- The box with every coordinate cut to an integer the way Go `int(x)` does. -/
def Box.truncated (a : Box ℚ) : Box Int :=
  { x0 := goInt a.x0, y0 := goInt a.y0, x1 := goInt a.x1, y1 := goInt a.y1 }

/-- The bird's box: `birdSize` wide and high, centred on the column `screenWidth/2` and on
the bird's vertical position. -/
def birdBox (birdY : ℚ) : Box ℚ :=
  { x0 := (screenWidth : ℚ) / 2 - (birdSize : ℚ) / 2
    y0 := birdY - (birdSize : ℚ) / 2
    x1 := (screenWidth : ℚ) / 2 + (birdSize : ℚ) / 2
    y1 := birdY + (birdSize : ℚ) / 2 }

/-- The upper barrier of a pipe: from the top of the screen down to `GapY - pipeGap/2`. -/
def upperBarrierBox (p : Pipe) : Box ℚ :=
  { x0 := p.X, y0 := 0, x1 := p.X + (pipeWidth : ℚ), y1 := p.GapY - (pipeGap : ℚ) / 2 }

/-- The lower barrier of a pipe: from `GapY + pipeGap/2` down to the bottom of the screen. -/
def lowerBarrierBox (p : Pipe) : Box ℚ :=
  { x0 := p.X, y0 := p.GapY + (pipeGap : ℚ) / 2, x1 := p.X + (pipeWidth : ℚ)
    y1 := (screenHeight : ℚ) }

/-! ## Runs of several ticks -/

/-- Whether the tick that starts from `g` appends a pipe (lines 98-103). -/
def spawnsPipe (g : Game) : Bool :=
  decide (g.gameState = "play") && decide ((g.frameCount + 1) % 180 = 0)

/-- The state after the ticks whose inputs are listed, first tick first. -/
def runTicks : List Input → Sys → Sys
  | [], s => s
  | inp :: rest, s => runTicks rest (Update inp s)

/-- No tick of the run appends a pipe. -/
def noSpawnDuring : List Input → Sys → Bool
  | [], _ => true
  | inp :: rest, s => !spawnsPipe s.g && noSpawnDuring rest (Update inp s)

/-- The number of pipes in the sequence that are not yet marked scored. -/
def unscored (g : Game) : Nat := g.pipes.countP fun p => !p.Passed

/-! ## Concrete states and inputs used by the evaluations below -/

/-- A tick in which Enter has just been pressed and the file write succeeds. -/
def enterInput : Input := { enter := true, space := false, rnd := 1, write := WriteResult.ok }

/-- A tick in which Enter has just been pressed and the file write fails after the open has
emptied the file. -/
def enterInputWriteFails : Input :=
  { enter := true, space := false, rnd := 1, write := WriteResult.writeFailed 0 }

/-- A tick in which Enter has just been pressed and the file cannot be opened for writing. -/
def enterInputOpenFails : Input :=
  { enter := true, space := false, rnd := 1, write := WriteResult.openFailed }

/-- A tick with no key edge. -/
def idleInput : Input := { enter := false, space := false, rnd := 1, write := WriteResult.ok }

/-- A tick in which Space has just been pressed. -/
def jumpInput : Input := { enter := false, space := true, rnd := 1, write := WriteResult.ok }

/-- A finished run: score 7, best 5, the file still holding the old best. -/
def overSys : Sys :=
  { g :=
      { birdY := 470, velocity := 6, pipes := [{ X := 100, GapY := 240, Passed := true }]
        score := 7, highScore := 5, gameState := "gameover", frameCount := 400 }
    store := { file := some "5", saved := [] } }

/-- A run in which the bird reaches exactly `screenHeight - birdSize` on the next tick. -/
def floorSys : Sys :=
  { g :=
      { birdY := 919 / 2, velocity := 0, pipes := []
        score := 0, highScore := 0, gameState := "play", frameCount := 0 }
    store := { file := none, saved := [] } }

/-- A run in which the bird falls through the floor on the next tick with a new best score. -/
def dyingSys : Sys :=
  { g :=
      { birdY := 470, velocity := 0, pipes := []
        score := 3, highScore := 1, gameState := "play", frameCount := 0 }
    store := { file := some "1", saved := [] } }

/-- A run with the bird at the ceiling, still moving up after a jump. -/
def ceilingSys : Sys :=
  { g :=
      { birdY := 0, velocity := -8, pipes := []
        score := 0, highScore := 0, gameState := "play", frameCount := 0 }
    store := { file := none, saved := [] } }

/-- A run whose bird ends the next tick half a unit inside the lower barrier of its pipe. -/
def grazingSys : Sys :=
  { g :=
      { birdY := 280, velocity := 0, pipes := [{ X := 102, GapY := 240, Passed := true }]
        score := 0, highScore := 0, gameState := "play", frameCount := 0 }
    store := { file := none, saved := [] } }

/-- A run whose bird flies through the middle of the gap of its pipe. -/
def clearSys : Sys :=
  { g :=
      { birdY := 240, velocity := 0, pipes := [{ X := 102, GapY := 240, Passed := true }]
        score := 0, highScore := 0, gameState := "play", frameCount := 0 }
    store := { file := none, saved := [] } }

/-- A run whose bird is level with the upper barrier of the pipe it is flying into. -/
def crashSys : Sys :=
  { g :=
      { birdY := 100, velocity := 0, pipes := [{ X := 102, GapY := 240, Passed := true }]
        score := 0, highScore := 0, gameState := "play", frameCount := 0 }
    store := { file := none, saved := [] } }

/-- A state no run reaches: a negative score, one unscored pipe, the bird below the floor. -/
def debtSys : Sys :=
  { g :=
      { birdY := 470, velocity := 0, pipes := [{ X := 300, GapY := 240, Passed := false }]
        score := -5, highScore := 0, gameState := "play", frameCount := 0 }
    store := { file := none, saved := [] } }

/-- A run with one unscored pipe whose centre passes the bird's column on the next tick. -/
def scoringSys : Sys :=
  { g :=
      { birdY := 240, velocity := 0, pipes := [{ X := 130, GapY := 240, Passed := false }]
        score := 0, highScore := 0, gameState := "play", frameCount := 0 }
    store := { file := none, saved := [] } }

/-- The program at start-up: `NewGame()` on the store it finds. -/
def initialSys (st : Store) : Sys := { g := NewGame st, store := st }

/-- A game waiting on the start screen, some ticks after start-up. -/
def startSys : Sys :=
  { g :=
      { birdY := 240, velocity := 0, pipes := []
        score := 0, highScore := 5, gameState := "start", frameCount := 10 }
    store := { file := some "5", saved := [] } }

/-- A run whose only pipe has its right edge exactly on the left border after the next tick. -/
def pruneSys : Sys :=
  { g :=
      { birdY := 240, velocity := 0, pipes := [{ X := -58, GapY := 240, Passed := true }]
        score := 1, highScore := 0, gameState := "play", frameCount := 0 }
    store := { file := none, saved := [] } }

/-- A run one tick before a pipe is due (`frameCount` 179), with one pipe on screen. -/
def spawnSys : Sys :=
  { g :=
      { birdY := 240, velocity := 0, pipes := [{ X := 140, GapY := 300, Passed := false }]
        score := 0, highScore := 0, gameState := "play", frameCount := 179 }
    store := { file := none, saved := [] } }

/-- The ordering invariant of the obstacle sequence: strictly increasing in `X` from head to
tail, and nothing right of where a pipe stands after its first advance. -/
def pipesOrdered (g : Game) : Prop :=
  g.pipes.Pairwise (fun a b => a.X < b.X) ∧ ∀ p ∈ g.pipes, p.X ≤ (screenWidth : ℚ) - 2

/-! ## The loop and the tick in closed form -/

theorem scoring_threshold (x : ℚ) :
    x < ((screenWidth / 2 - pipeWidth / 2 : Int) : ℚ) ↔
      x + (pipeWidth : ℚ) / 2 < (screenWidth : ℚ) / 2 := by
  norm_num [screenWidth, pipeWidth]
  constructor <;> intro h <;> linarith

theorem pipeStep_eq (birdY : ℚ) (p : Pipe) (ls : LoopState) :
    pipeStep birdY p ls =
      { done := ls.done ++ [advancePipe p]
        score := ls.score + (if awardsPoint p then 1 else 0)
        gameState := if collides birdY p then "gameover" else ls.gameState } := by
  have hd : decide (p.X - 2 < ((screenWidth / 2 - pipeWidth / 2 : Int) : ℚ)) =
      decide (p.X - 2 + (pipeWidth : ℚ) / 2 < (screenWidth : ℚ) / 2) := by
    simp only [scoring_threshold]
  unfold pipeStep advancePipe awardsPoint collides upperPipeRect lowerPipeRect
  simp only [hd]
  generalize decide (p.X - 2 + (pipeWidth : ℚ) / 2 < (screenWidth : ℚ) / 2) = b
  cases b <;> cases hP : p.Passed <;> simp [advancePipe]

theorem pipeLoop_eq (birdY : ℚ) (ps : List Pipe) (ls : LoopState) :
    pipeLoop birdY ps ls =
      { done := ls.done ++ ps.map advancePipe
        score := ls.score + (ps.countP awardsPoint : Nat)
        gameState := if ps.any (collides birdY) then "gameover" else ls.gameState } := by
  induction ps generalizing ls with
  | nil => simp [pipeLoop]
  | cons p rest ih =>
    rw [pipeLoop, ih, pipeStep_eq]
    by_cases ha : awardsPoint p = true <;> by_cases hc : collides birdY p = true <;>
      simp [ha, hc, List.countP_cons] <;> omega

theorem Update_play (inp : Input) (s : Sys) (h : s.g.gameState = "play") :
    Update inp s =
      { g :=
          { birdY := birdYAfter s.g
            velocity :=
              if s.g.birdY + (s.g.velocity + gravity) < 0 then 0
              else if inp.space then jumpVelocity else s.g.velocity + gravity
            pipes := filterPipes ((pipesAfterSpawn inp s.g).map advancePipe)
            score := s.g.score + ((pipesAfterSpawn inp s.g).countP awardsPoint : Nat)
            highScore := s.g.highScore
            gameState :=
              if (pipesAfterSpawn inp s.g).any (collides (birdYAfter s.g)) then "gameover"
              else if s.g.birdY + (s.g.velocity + gravity) > ((screenHeight - birdSize : Int) : ℚ)
                then "gameover" else "play"
            frameCount := s.g.frameCount + 1 }
        store := s.store } := by
  simp only [Update, h, updatePlay, pipeLoop_eq, pipesAfterSpawn, birdYAfter]
  simp

theorem Update_gameover (inp : Input) (s : Sys) (h : s.g.gameState = "gameover") :
    Update inp s = updateGameOver inp { s with g := { s.g with frameCount := s.g.frameCount + 1 } } := by
  simp [Update, h]

/-! ## Decimal text: parsing undoes formatting -/

theorem digitChar_toNat (d : Nat) (hd : d < 10) : (Char.ofNat (48 + d)).toNat = 48 + d := by
  interval_cases d <;> rfl

theorem parseDigits_map (ds : List Nat) (hds : ∀ d ∈ ds, d < 10) (acc : Nat) :
    parseDigits (ds.map fun d => Char.ofNat (48 + d)) acc =
      some (ds.foldl (fun a d => a * 10 + d) acc) := by
  induction ds generalizing acc with
  | nil => simp [parseDigits]
  | cons d ds ih =>
    have hd : d < 10 := hds d (List.mem_cons_self _ _)
    have hc := digitChar_toNat d hd
    simp only [List.map_cons, parseDigits, hc, List.foldl_cons]
    rw [if_pos (by omega), ih (fun x hx => hds x (List.mem_cons_of_mem _ hx))]
    simp

theorem foldl_reverse_digits (ds : List Nat) :
    ds.reverse.foldl (fun a d => a * 10 + d) 0 = Nat.ofDigits 10 ds := by
  rw [List.foldl_reverse, Nat.ofDigits_eq_foldr]
  congr 1
  funext x y
  simp [mul_comm, add_comm]

theorem parseDigits_natDigits (n : Nat) : parseDigits (natDigits n) 0 = some n := by
  unfold natDigits
  split
  · next h => subst h; simp [parseDigits]
  · rw [parseDigits_map _ (fun d hd => Nat.digits_lt_base (by norm_num) (List.mem_reverse.mp hd)),
      foldl_reverse_digits, Nat.ofDigits_digits]

theorem natDigits_head (n : Nat) :
    ∃ c cs, natDigits n = c :: cs ∧ c ≠ '-' ∧ c ≠ '+' := by
  unfold natDigits
  split
  · exact ⟨'0', [], rfl, by decide, by decide⟩
  · next h =>
    have hne : (Nat.digits 10 n).reverse ≠ [] := by
      simpa using (Nat.digits_ne_nil_iff_ne_zero.mpr h)
    obtain ⟨d, ds, hds⟩ := List.exists_cons_of_ne_nil hne
    have hd : d < 10 := by
      have : d ∈ (Nat.digits 10 n).reverse := by rw [hds]; exact List.mem_cons_self _ _
      exact Nat.digits_lt_base (by norm_num) (List.mem_reverse.mp this)
    refine ⟨Char.ofNat (48 + d), ds.map fun d => Char.ofNat (48 + d), by rw [hds]; rfl, ?_, ?_⟩
    · interval_cases d <;> decide
    · interval_cases d <;> decide

theorem Atoi_Itoa (n : Int) (hlo : -(2 : Int) ^ 63 ≤ n) (hhi : n < (2 : Int) ^ 63) :
    Atoi (Itoa n) = some n := by
  obtain ⟨c, cs, hcs, hm, hp⟩ := natDigits_head n.natAbs
  have hparse := parseDigits_natDigits n.natAbs
  rw [hcs] at hparse
  by_cases hn : n < 0
  · have hb : n.natAbs ≤ 2 ^ 63 := by omega
    have hv : -((n.natAbs : Nat) : Int) = n := by omega
    simp only [Atoi, Itoa, if_pos hn, hcs, List.head?_cons, List.tail_cons, true_or, if_true,
      hparse, if_pos hb, hv]
    simp
  · have hb : n.natAbs < 2 ^ 63 := by omega
    have hv : ((n.natAbs : Nat) : Int) = n := by omega
    have h1 : ¬ (some c = some '-' ∨ some c = some '+') := by simp [hm, hp]
    have h2 : ¬ (some c = some '-') := by simp [hm]
    simp only [Atoi, Itoa, if_neg hn, hcs, List.head?_cons, if_neg h1, if_neg h2, hparse,
      if_pos hb, hv]
    simp


/-! ## Truncation and rectangles -/

theorem goInt_intCast (n : Int) : goInt (n : ℚ) = n := by
  unfold goInt
  split <;> simp

theorem goInt_mono {x y : ℚ} (h : x ≤ y) : goInt x ≤ goInt y := by
  unfold goInt
  split_ifs with hx hy hy
  · exact Int.floor_mono h
  · exact absurd (le_trans hx h) hy
  · exact le_trans (Int.ceil_le.mpr (by simpa using le_of_lt (not_le.mp hx)))
      (Int.le_floor.mpr (by simpa using hy))
  · exact Int.ceil_mono h

theorem lt_of_goInt_lt {x : ℚ} {n : Int} (h : goInt x < n) : x < (n : ℚ) := by
  by_contra hc
  have := goInt_mono (not_lt.mp hc)
  rw [goInt_intCast] at this
  omega

theorem lt_of_lt_goInt {x : ℚ} {n : Int} (h : n < goInt x) : (n : ℚ) < x := by
  by_contra hc
  have := goInt_mono (not_lt.mp hc)
  rw [goInt_intCast] at this
  omega

theorem goInt_zero : goInt (0 : ℚ) = 0 := by
  simpa using goInt_intCast 0

theorem Rect_eq_min_max (x0 y0 x1 y1 : Int) :
    Rect x0 y0 x1 y1 =
      { MinX := min x0 x1, MinY := min y0 y1, MaxX := max x0 x1, MaxY := max y0 y1 } := by
  have hx : (if x0 > x1 then x1 else x0) = min x0 x1 := by split_ifs <;> omega
  have hy : (if y0 > y1 then y1 else y0) = min y0 y1 := by split_ifs <;> omega
  have hx2 : (if x0 > x1 then x0 else x1) = max x0 x1 := by split_ifs <;> omega
  have hy2 : (if y0 > y1 then y0 else y1) = max y0 y1 := by split_ifs <;> omega
  simp only [Rect, hx, hy, hx2, hy2]

theorem Rect_overlaps_iff (a0 b0 a1 b1 c0 d0 c1 d1 : Int) :
    (Rect a0 b0 a1 b1).Overlaps (Rect c0 d0 c1 d1) = true ↔
      (min a0 a1 < max a0 a1 ∧ min b0 b1 < max b0 b1) ∧
      (min c0 c1 < max c0 c1 ∧ min d0 d1 < max d0 d1) ∧
      (min a0 a1 < max c0 c1 ∧ min c0 c1 < max a0 a1) ∧
      (min b0 b1 < max d0 d1 ∧ min d0 d1 < max b0 b1) := by
  rw [Rect_eq_min_max, Rect_eq_min_max]
  simp only [Rectangle.Overlaps, Rectangle.Empty, Bool.and_eq_true, Bool.not_eq_true',
    Bool.or_eq_false_iff, decide_eq_false_iff_not, decide_eq_true_eq, ge_iff_le, not_le]
  tauto

theorem birdRect_eq (y : ℚ) : birdRect y = Rect 150 (goInt (y - 10)) 170 (goInt (y + 10)) := by
  have e : ((birdSize / 2 : Int) : ℚ) = 10 := by norm_num [birdSize]
  have e6 : screenWidth / 2 - birdSize / 2 = (150 : Int) := by decide
  have e7 : screenWidth / 2 + birdSize / 2 = (170 : Int) := by decide
  rw [birdRect, e, e6, e7]

theorem upperPipeRect_eq (p : Pipe) :
    upperPipeRect p = Rect (goInt p.X) 0 (goInt (p.X + 60)) (goInt (p.GapY - 50)) := by
  have e : ((pipeGap / 2 : Int) : ℚ) = 50 := by norm_num [pipeGap]
  have e2 : (pipeWidth : ℚ) = 60 := by norm_num [pipeWidth]
  rw [upperPipeRect, e, e2]

theorem lowerPipeRect_eq (p : Pipe) :
    lowerPipeRect p = Rect (goInt p.X) (goInt (p.GapY + 50)) (goInt (p.X + 60)) 480 := by
  have e : ((pipeGap / 2 : Int) : ℚ) = 50 := by norm_num [pipeGap]
  have e2 : (pipeWidth : ℚ) = 60 := by norm_num [pipeWidth]
  have e8 : screenHeight = (480 : Int) := by decide
  rw [lowerPipeRect, e, e2, e8]

theorem birdBox_eq (y : ℚ) : birdBox y = { x0 := 150, y0 := y - 10, x1 := 170, y1 := y + 10 } := by
  norm_num [birdBox, screenWidth, birdSize]

theorem upperBarrierBox_eq (p : Pipe) :
    upperBarrierBox p = { x0 := p.X, y0 := 0, x1 := p.X + 60, y1 := p.GapY - 50 } := by
  norm_num [upperBarrierBox, pipeWidth, pipeGap]

theorem lowerBarrierBox_eq (p : Pipe) :
    lowerBarrierBox p = { x0 := p.X, y0 := p.GapY + 50, x1 := p.X + 60, y1 := 480 } := by
  norm_num [lowerBarrierBox, pipeWidth, pipeGap, screenHeight]

theorem goInt_150 : goInt (150 : ℚ) = 150 := by simpa using goInt_intCast 150

theorem goInt_170 : goInt (170 : ℚ) = 170 := by simpa using goInt_intCast 170

theorem goInt_480 : goInt (480 : ℚ) = 480 := by simpa using goInt_intCast 480

/-- Overlap of the truncated boxes is what the code tests on its rectangles. -/
theorem collides_of_truncated_overlap (birdY : ℚ) (p : Pipe)
    (h : (birdBox birdY).truncated.overlaps (upperBarrierBox (advancePipe p)).truncated = true ∨
      (birdBox birdY).truncated.overlaps (lowerBarrierBox (advancePipe p)).truncated = true) :
    collides birdY p = true := by
  unfold collides
  rw [birdRect_eq, upperPipeRect_eq, lowerPipeRect_eq, Bool.or_eq_true, Rect_overlaps_iff,
    Rect_overlaps_iff]
  simp only [birdBox_eq, upperBarrierBox_eq, lowerBarrierBox_eq, Box.overlaps, Box.truncated,
    goInt_150, goInt_170, goInt_480, goInt_zero, Bool.and_eq_true, decide_eq_true_eq,
    max_lt_iff, lt_min_iff] at h
  generalize goInt (birdY - 10) = ty0 at h ⊢
  generalize goInt (birdY + 10) = ty1 at h ⊢
  generalize goInt (advancePipe p).X = tx0 at h ⊢
  generalize goInt ((advancePipe p).X + 60) = tx1 at h ⊢
  generalize goInt ((advancePipe p).GapY - 50) = tu at h ⊢
  generalize goInt ((advancePipe p).GapY + 50) = tl at h ⊢
  omega

theorem real_overlap_of_collides_aux (birdY : ℚ) (p : Pipe) (u l : Int)
    (hu : p.GapY - 50 = (u : ℚ)) (hl : p.GapY + 50 = (l : ℚ)) (hu0 : 0 < u) (hl480 : l < 480)
    (h : collides birdY p = true) :
    (birdBox birdY).overlaps (upperBarrierBox (advancePipe p)) = true ∨
      (birdBox birdY).overlaps (lowerBarrierBox (advancePipe p)) = true := by
  unfold collides at h
  rw [birdRect_eq, upperPipeRect_eq, lowerPipeRect_eq, Bool.or_eq_true, Rect_overlaps_iff,
    Rect_overlaps_iff] at h
  simp only [birdBox_eq, upperBarrierBox_eq, lowerBarrierBox_eq, Box.overlaps,
    Bool.and_eq_true, decide_eq_true_eq, max_lt_iff, lt_min_iff]
  have hGap : (advancePipe p).GapY = p.GapY := rfl
  have hX : (advancePipe p).X = p.X - 2 := rfl
  rw [hGap, hX] at h ⊢
  rw [hu, hl, goInt_intCast, goInt_intCast] at h
  rw [hu, hl]
  have hx : goInt (p.X - 2) ≤ goInt (p.X - 2 + 60) := goInt_mono (by linarith)
  have hy : goInt (birdY - 10) ≤ goInt (birdY + 10) := goInt_mono (by linarith)
  have a1 : (150 : Int) < goInt (p.X - 2 + 60) → (150 : ℚ) < p.X - 2 + 60 := fun hh => by
    simpa using lt_of_lt_goInt hh
  have a2 : goInt (p.X - 2) < (170 : Int) → p.X - 2 < (170 : ℚ) := fun hh => by
    simpa using lt_of_goInt_lt hh
  have a3 : goInt (birdY - 10) < u → birdY - 10 < (u : ℚ) := fun hh => lt_of_goInt_lt hh
  have a4 : (0 : Int) < goInt (birdY + 10) → (0 : ℚ) < birdY + 10 := fun hh => by
    simpa using lt_of_lt_goInt hh
  have a5 : goInt (birdY - 10) < (480 : Int) → birdY - 10 < (480 : ℚ) := fun hh => by
    simpa using lt_of_goInt_lt hh
  have a6 : l < goInt (birdY + 10) → (l : ℚ) < birdY + 10 := fun hh => lt_of_lt_goInt hh
  have hu0q : (0 : ℚ) < (u : ℚ) := by exact_mod_cast hu0
  have hl480q : (l : ℚ) < 480 := by exact_mod_cast hl480
  rcases h with h | h
  · left
    exact ⟨⟨⟨by norm_num, a2 (by omega)⟩, a1 (by omega), by linarith⟩,
      ⟨by linarith, a4 (by omega)⟩, a3 (by omega), hu0q⟩
  · right
    exact ⟨⟨⟨by norm_num, a2 (by omega)⟩, a1 (by omega), by linarith⟩,
      ⟨by linarith, a6 (by omega)⟩, a5 (by omega), hl480q⟩

/-- With the gap centre at one of the three heights a spawned pipe can have, the code's
rectangle test only fires when the boxes of the specification overlap. -/
theorem real_overlap_of_collides (birdY : ℚ) (p : Pipe)
    (hG : p.GapY = 180 ∨ p.GapY = 240 ∨ p.GapY = 300) (h : collides birdY p = true) :
    (birdBox birdY).overlaps (upperBarrierBox (advancePipe p)) = true ∨
      (birdBox birdY).overlaps (lowerBarrierBox (advancePipe p)) = true := by
  rcases hG with hG | hG | hG
  · exact real_overlap_of_collides_aux birdY p 130 230 (by rw [hG]; norm_num)
      (by rw [hG]; norm_num) (by decide) (by decide) h
  · exact real_overlap_of_collides_aux birdY p 190 290 (by rw [hG]; norm_num)
      (by rw [hG]; norm_num) (by decide) (by decide) h
  · exact real_overlap_of_collides_aux birdY p 250 350 (by rw [hG]; norm_num)
      (by rw [hG]; norm_num) (by decide) (by decide) h

/-- A pipe appended this tick is still right of the bird after its first advance. -/
theorem not_collides_of_far_right (birdY : ℚ) (p : Pipe) (h : (172 : ℚ) ≤ p.X) :
    collides birdY p = false := by
  rw [Bool.eq_false_iff]
  intro hc
  unfold collides at hc
  rw [birdRect_eq, upperPipeRect_eq, lowerPipeRect_eq, Bool.or_eq_true, Rect_overlaps_iff,
    Rect_overlaps_iff] at hc
  have hX : (advancePipe p).X = p.X - 2 := rfl
  rw [hX] at hc
  have hx : goInt (p.X - 2) ≤ goInt (p.X - 2 + 60) := goInt_mono (by linarith)
  have h170 : (170 : Int) ≤ goInt (p.X - 2) := by
    have := goInt_mono (show ((170 : Int) : ℚ) ≤ p.X - 2 by push_cast; linarith)
    rwa [goInt_intCast] at this
  omega

/-! ## Scoring -/

theorem filterPipes_eq_filter (ps : List Pipe) :
    filterPipes ps = ps.filter fun p => decide (p.X + (pipeWidth : ℚ) > 0) := by
  induction ps with
  | nil => rfl
  | cons p ps ih =>
    by_cases h : p.X + (pipeWidth : ℚ) > 0 <;> simp [filterPipes, h, ih]

theorem awardsPoint_iff (p : Pipe) :
    awardsPoint p = true ↔
      p.Passed = false ∧ p.X - 2 + (pipeWidth : ℚ) / 2 < (screenWidth : ℚ) / 2 := by
  simp [awardsPoint]

theorem awardsPoint_of_right (p : Pipe) (h : (132 : ℚ) ≤ p.X) : awardsPoint p = false := by
  have : ¬ (p.X - 2 + (pipeWidth : ℚ) / 2 < (screenWidth : ℚ) / 2) := by
    norm_num [screenWidth, pipeWidth]
    linarith
  simp [awardsPoint, this]

theorem countP_awardsPoint_spawn (inp : Input) (g : Game) :
    (pipesAfterSpawn inp g).countP awardsPoint = g.pipes.countP awardsPoint := by
  unfold pipesAfterSpawn
  split
  · rw [List.countP_append, List.countP_cons, List.countP_nil,
      awardsPoint_of_right _ (by norm_num [screenWidth])]
    simp
  · rfl

/-- Points awarded in a tick are paid for by pipes that stop being unscored. -/
theorem countP_awards_add_unscored (ps : List Pipe) :
    ps.countP awardsPoint + (filterPipes (ps.map advancePipe)).countP (fun p => !p.Passed) ≤
      ps.countP fun p => !p.Passed := by
  induction ps with
  | nil => simp [filterPipes]
  | cons p ps ih =>
    rw [List.map_cons, filterPipes]
    by_cases hc : p.X - 2 + (pipeWidth : ℚ) / 2 < (screenWidth : ℚ) / 2 <;>
      cases hP : p.Passed <;> split <;>
      simp [List.countP_cons, awardsPoint, advancePipe, hc, hP] <;> omega

theorem all_passed_after_loop (ps : List Pipe) (h : ∀ p ∈ ps, p.Passed = true) :
    ∀ q ∈ filterPipes (ps.map advancePipe), q.Passed = true := by
  intro q hq
  rw [filterPipes_eq_filter] at hq
  obtain ⟨p, hp, rfl⟩ := List.mem_map.mp (List.mem_filter.mp hq).1
  simp [advancePipe, h p hp]

/-- One tick that appends no pipe: the score stays non-negative, score plus unscored pipes does
not grow, and a sequence of scored pipes stays one. -/
theorem Update_noSpawn_invariant (inp : Input) (s : Sys) (hno : spawnsPipe s.g = false)
    (h0 : 0 ≤ s.g.score) :
    0 ≤ (Update inp s).g.score ∧
      (Update inp s).g.score + (unscored (Update inp s).g : Nat) ≤ s.g.score + (unscored s.g : Nat) ∧
      ((∀ p ∈ s.g.pipes, p.Passed = true) → ∀ q ∈ (Update inp s).g.pipes, q.Passed = true) := by
  by_cases hplay : s.g.gameState = "play"
  · have hsp : pipesAfterSpawn inp s.g = s.g.pipes := by
      unfold pipesAfterSpawn
      simp only [spawnsPipe, hplay, decide_True, Bool.true_and, decide_eq_false_iff_not] at hno
      rw [if_neg hno]
    rw [Update_play inp s hplay, hsp]
    have := countP_awards_add_unscored s.g.pipes
    refine ⟨by positivity, ?_, all_passed_after_loop s.g.pipes⟩
    simp only [unscored]
    omega
  · by_cases hover : s.g.gameState = "gameover"
    · rw [Update_gameover inp s hover]
      unfold updateGameOver
      split <;> split <;> simp [NewGame, unscored, h0] <;> omega
    · by_cases hstart : s.g.gameState = "start"
      · unfold Update
        simp only [hstart, if_true]
        split <;> simp [unscored, h0]
      · unfold Update
        simp [hstart, hplay, hover, unscored, h0]

theorem runTicks_noSpawn_invariant (inps : List Input) (s : Sys)
    (hno : noSpawnDuring inps s = true) (h0 : 0 ≤ s.g.score) :
    0 ≤ (runTicks inps s).g.score ∧
      (runTicks inps s).g.score + (unscored (runTicks inps s).g : Nat) ≤
        s.g.score + (unscored s.g : Nat) ∧
      ((∀ p ∈ s.g.pipes, p.Passed = true) → ∀ q ∈ (runTicks inps s).g.pipes, q.Passed = true) := by
  induction inps generalizing s with
  | nil => exact ⟨h0, le_refl _, fun h => h⟩
  | cons inp rest ih =>
    simp only [noSpawnDuring, Bool.and_eq_true, Bool.not_eq_true'] at hno
    obtain ⟨a, b, c⟩ := Update_noSpawn_invariant inp s hno.1 h0
    obtain ⟨a2, b2, c2⟩ := ih (Update inp s) hno.2 a
    exact ⟨a2, le_trans b2 b, fun h => c2 (c h)⟩

/-- No tick makes a non-negative score negative. -/
theorem score_nonneg_Update (inp : Input) (s : Sys) (h0 : 0 ≤ s.g.score) :
    0 ≤ (Update inp s).g.score := by
  by_cases hplay : s.g.gameState = "play"
  · rw [Update_play inp s hplay]
    have : (0 : Int) ≤ ((pipesAfterSpawn inp s.g).countP awardsPoint : Nat) :=
      Int.ofNat_nonneg _
    show 0 ≤ s.g.score + ((pipesAfterSpawn inp s.g).countP awardsPoint : Nat)
    omega
  · by_cases hover : s.g.gameState = "gameover"
    · rw [Update_gameover inp s hover]
      unfold updateGameOver
      split <;> split <;> simp [NewGame, h0]
    · by_cases hstart : s.g.gameState = "start"
      · unfold Update
        simp only [hstart, if_true]
        split <;> simp [h0]
      · unfold Update
        simp [hstart, hplay, hover, h0]

theorem score_nonneg_runTicks (inps : List Input) (s : Sys) (h0 : 0 ≤ s.g.score) :
    0 ≤ (runTicks inps s).g.score := by
  induction inps generalizing s with
  | nil => exact h0
  | cons inp rest ih => exact ih (Update inp s) (score_nonneg_Update inp s h0)

/-- The score is non-negative in every state a run reaches from `NewGame`. -/
theorem score_nonneg_reachable (st : Store) (run : List Input) :
    0 ≤ (runTicks run (initialSys st)).g.score :=
  score_nonneg_runTicks run (initialSys st) (le_refl _)

/-! ## Pruning and spawning -/

theorem filterPipes_append (ps qs : List Pipe) :
    filterPipes (ps ++ qs) = filterPipes ps ++ filterPipes qs := by
  simp only [filterPipes_eq_filter, List.filter_append]

theorem mem_filterPipes {q : Pipe} {ps : List Pipe} :
    q ∈ filterPipes ps ↔ q ∈ ps ∧ q.X + (pipeWidth : ℚ) > 0 := by
  rw [filterPipes_eq_filter, List.mem_filter, decide_eq_true_eq]

/-- On a tick that is due to spawn, the new pipe survives its first advance and pruning. -/
theorem filterPipes_spawn (ps : List Pipe) (gap : ℚ) :
    filterPipes
        ((ps ++ [({ X := (screenWidth : ℚ), GapY := gap, Passed := false } : Pipe)]).map
          advancePipe) =
      filterPipes (ps.map advancePipe) ++
        [{ X := (screenWidth : ℚ) - 2, GapY := gap, Passed := false }] := by
  rw [List.map_append, filterPipes_append]
  congr 1
  have hX : ((screenWidth : ℚ) - 2) + (pipeWidth : ℚ) > 0 := by norm_num [screenWidth, pipeWidth]
  have hP : ¬ ((screenWidth : ℚ) - 2 + (pipeWidth : ℚ) / 2 < (screenWidth : ℚ) / 2) := by
    norm_num [screenWidth, pipeWidth]
  simp [filterPipes, advancePipe, hX, hP]

/-- The gap centre of a spawned pipe is one of three heights. -/
theorem spawn_gap_cases (r : Fin 3) :
    ((screenHeight / 2 : Int) : ℚ) + ((((r.val : Int) - 1) * 60 : Int) : ℚ) =
        (screenHeight : ℚ) / 2 + 60 * (((r.val : Int) : ℚ) - 1) ∧
      (((screenHeight / 2 : Int) : ℚ) + ((((r.val : Int) - 1) * 60 : Int) : ℚ) = 180 ∨
        ((screenHeight / 2 : Int) : ℚ) + ((((r.val : Int) - 1) * 60 : Int) : ℚ) = 240 ∨
        ((screenHeight / 2 : Int) : ℚ) + ((((r.val : Int) - 1) * 60 : Int) : ℚ) = 300) := by
  fin_cases r <;> norm_num [screenHeight]

/-! ## Order of the obstacle sequence -/

theorem pipesOrdered_Update (inp : Input) (s : Sys) (h : pipesOrdered s.g) :
    pipesOrdered (Update inp s).g := by
  obtain ⟨hsort, hbound⟩ := h
  by_cases hplay : s.g.gameState = "play"
  · rw [Update_play inp s hplay]
    have hsp : (pipesAfterSpawn inp s.g).Pairwise (fun a b => a.X < b.X) ∧
        ∀ p ∈ pipesAfterSpawn inp s.g, p.X ≤ (screenWidth : ℚ) := by
      unfold pipesAfterSpawn
      split
      · refine ⟨List.pairwise_append.mpr ⟨hsort, List.pairwise_singleton _ _, ?_⟩, ?_⟩
        · intro a ha b hb
          rw [List.mem_singleton] at hb
          rw [hb]
          have := hbound a ha
          show a.X < (screenWidth : ℚ)
          linarith
        · intro p hp
          rcases List.mem_append.mp hp with hp | hp
          · have := hbound p hp
            linarith
          · rw [List.mem_singleton] at hp
            rw [hp]
      · exact ⟨hsort, fun p hp => by have := hbound p hp; linarith⟩
    have hmap : ((pipesAfterSpawn inp s.g).map advancePipe).Pairwise (fun a b => a.X < b.X) :=
      hsp.1.map advancePipe (fun a b hab => by
        show a.X - 2 < b.X - 2
        linarith)
    constructor
    · show (filterPipes _).Pairwise _
      rw [filterPipes_eq_filter]
      exact hmap.filter _
    · intro q hq
      have hq2 : q ∈ filterPipes ((pipesAfterSpawn inp s.g).map advancePipe) := hq
      obtain ⟨p, hp, rfl⟩ := List.mem_map.mp (mem_filterPipes.mp hq2).1
      have := hsp.2 p hp
      show p.X - 2 ≤ (screenWidth : ℚ) - 2
      linarith
  · by_cases hover : s.g.gameState = "gameover"
    · rw [Update_gameover inp s hover]
      unfold updateGameOver pipesOrdered
      split <;> split <;> simp [NewGame, hsort] <;> exact hbound
    · by_cases hstart : s.g.gameState = "start"
      · unfold Update pipesOrdered
        simp only [hstart, if_true]
        split <;> exact ⟨hsort, hbound⟩
      · unfold Update pipesOrdered
        simp only [hstart, hplay, hover, if_false]
        exact ⟨hsort, hbound⟩

theorem pipesOrdered_runTicks (inps : List Input) (s : Sys) (h : pipesOrdered s.g) :
    pipesOrdered (runTicks inps s).g := by
  induction inps generalizing s with
  | nil => exact h
  | cons inp rest ih => exact ih (Update inp s) (pipesOrdered_Update inp s h)

theorem pipesOrdered_initialSys (st : Store) : pipesOrdered (initialSys st).g := by
  simp [pipesOrdered, initialSys, NewGame]

/-- On a sequence increasing in `X`, pruning removes a prefix. -/
theorem filterPipes_eq_drop (ps : List Pipe) (h : ps.Pairwise (fun a b => a.X < b.X)) :
    ∃ k, filterPipes ps = ps.drop k ∧ ∀ q ∈ ps.take k, q.X + (pipeWidth : ℚ) ≤ 0 := by
  induction ps with
  | nil => exact ⟨0, rfl, by simp⟩
  | cons p rest ih =>
    rw [List.pairwise_cons] at h
    by_cases hp : p.X + (pipeWidth : ℚ) > 0
    · refine ⟨0, ?_, by simp⟩
      rw [List.drop_zero, filterPipes_eq_filter, List.filter_eq_self]
      intro q hq
      rcases List.mem_cons.mp hq with hq | hq
      · rw [hq]; exact decide_eq_true hp
      · have := h.1 q hq
        exact decide_eq_true (by linarith)
    · obtain ⟨k, hk, hk2⟩ := ih h.2
      refine ⟨k + 1, ?_, ?_⟩
      · rw [filterPipes, if_neg hp, hk, List.drop_succ_cons]
      · intro q hq
        rw [List.take_succ_cons] at hq
        rcases List.mem_cons.mp hq with hq | hq
        · rw [hq]; exact not_lt.mp hp
        · exact hk2 q hq

/-! ## C1 - C3: restart from the Over phase -/

/-- Claim C1, as stated, fails: from the finished run `overSys` a tick with an Enter edge does
not end in `"play"`. -/
theorem C1_restart_is_not_play :
    overSys.g.gameState = "gameover" ∧ enterInput.enter = true ∧
      (Update enterInput overSys).g.gameState ≠ "play" := by
  decide!

/-- Claim C1, amended: for every game state in the Over phase, one `Update` tick with an Enter
edge leaves the game in the Start phase (`gameState = "start"`), the phase `NewGame` sets; a
further Enter edge is needed to reach Playing: from the state the restart leaves, a tick
without an Enter edge stays in Start and a tick with one ends in `"play"`. -/
theorem C1_restart_enters_start (inp : Input) (s : Sys)
    (hover : s.g.gameState = "gameover") (henter : inp.enter = true) :
    (Update inp s).g.gameState = "start" ∧
      (∀ next : Input, next.enter = false →
        (Update next (Update inp s)).g.gameState = "start") ∧
      (∀ next : Input, next.enter = true →
        (Update next (Update inp s)).g.gameState = "play") := by
  have h : (Update inp s).g.gameState = "start" := by
    rw [Update_gameover inp s hover]
    unfold updateGameOver
    split <;> simp [henter, NewGame]
  refine ⟨h, fun next hn => ?_, fun next hn => ?_⟩
  · generalize Update inp s = t at h
    simp [Update, h, hn]
  · generalize Update inp s = t at h
    simp [Update, h, hn]

/-- Witness for `C1_restart_enters_start` at `overSys`. -/
theorem C1_restart_enters_start_witness :
    overSys.g.gameState = "gameover" ∧ enterInput.enter = true ∧
      (Update enterInput overSys).g.gameState = "start" ∧
      (Update idleInput (Update enterInput overSys)).g.gameState = "start" ∧
      (Update enterInput (Update enterInput overSys)).g.gameState = "play" :=
  ⟨by decide, by decide,
    (C1_restart_enters_start enterInput overSys (by decide) (by decide)).1,
    (C1_restart_enters_start enterInput overSys (by decide) (by decide)).2.1 idleInput
      (by decide),
    (C1_restart_enters_start enterInput overSys (by decide) (by decide)).2.2 enterInput
      (by decide)⟩

/-- Claim C2: for every game state in the Over phase, one `Update` tick with an Enter edge
resets score to 0, the obstacle sequence to empty, `birdY` to `screenHeight/2 = 240`, the
velocity to 0 and the tick counter to 0, whatever those fields held before. -/
theorem C2_restart_resets_fields (inp : Input) (s : Sys)
    (hover : s.g.gameState = "gameover") (henter : inp.enter = true) :
    (Update inp s).g.score = 0 ∧ (Update inp s).g.pipes = [] ∧
      (Update inp s).g.birdY = (screenHeight : ℚ) / 2 ∧ (Update inp s).g.birdY = 240 ∧
      (Update inp s).g.velocity = 0 ∧ (Update inp s).g.frameCount = 0 := by
  rw [Update_gameover inp s hover]
  unfold updateGameOver
  split <;> norm_num [henter, NewGame, screenHeight]

/-- Witness for `C2_restart_resets_fields` at `overSys`. -/
theorem C2_restart_resets_fields_witness :
    overSys.g.gameState = "gameover" ∧ enterInput.enter = true ∧
      ((Update enterInput overSys).g.score = 0 ∧ (Update enterInput overSys).g.pipes = [] ∧
        (Update enterInput overSys).g.birdY = (screenHeight : ℚ) / 2 ∧
        (Update enterInput overSys).g.birdY = 240 ∧
        (Update enterInput overSys).g.velocity = 0 ∧
        (Update enterInput overSys).g.frameCount = 0) :=
  ⟨by decide, by decide, C2_restart_resets_fields enterInput overSys (by decide) (by decide)⟩

/-- Claim C3, as stated, fails: in `overSys` (score 7, best 5, file holding 5) a restart whose
save fails does not end with `highScore = max 5 7`.  When the open has emptied the file and
the write fails, the restart reloads 0; when the file cannot be opened, it reloads 5. -/
theorem C3_restart_loses_unsaved_best :
    overSys.g.gameState = "gameover" ∧ enterInputWriteFails.enter = true ∧
      (Update enterInputWriteFails overSys).g.highScore = 0 ∧
      (Update enterInputWriteFails overSys).g.highScore ≠
        max overSys.g.highScore overSys.g.score ∧
      enterInputOpenFails.enter = true ∧
      (Update enterInputOpenFails overSys).g.highScore = 5 ∧
      (Update enterInputOpenFails overSys).g.highScore ≠
        max overSys.g.highScore overSys.g.score := by
  decide!

/-- Claim C3, amended: for every game state in the Over phase, after one `Update` tick with an
Enter edge the in-memory `highScore` is the value `loadHighScore` reads from the store as the
tick leaves it (a save of the score is issued first when the score exceeds the best).  It
equals `max highScore score` when the score exceeds the best and its save succeeds, and when
the score does not exceed the best and the store holds the best.  When the save fails it is
what the file left by the failed write loads as: the old content if the file could not be
opened, 0 if the open emptied the file and nothing was written. -/
theorem C3_restart_reloads_best (inp : Input) (s : Sys)
    (hover : s.g.gameState = "gameover") (henter : inp.enter = true) :
    (Update inp s).g.highScore = loadHighScore (Update inp s).store ∧
      (Update inp s).store =
        (if s.g.score > s.g.highScore then saveHighScore inp.write s.g.score s.store
         else s.store) ∧
      (s.g.score > s.g.highScore → inp.write = WriteResult.ok →
        -(2 : Int) ^ 63 ≤ s.g.score → s.g.score < (2 : Int) ^ 63 →
        (Update inp s).g.highScore = max s.g.highScore s.g.score) ∧
      (s.g.score ≤ s.g.highScore → loadHighScore s.store = s.g.highScore →
        (Update inp s).g.highScore = max s.g.highScore s.g.score) ∧
      (s.g.score > s.g.highScore → inp.write = WriteResult.openFailed →
        (Update inp s).g.highScore = loadHighScore s.store) ∧
      (s.g.score > s.g.highScore → inp.write = WriteResult.writeFailed 0 →
        (Update inp s).g.highScore = 0) := by
  rw [Update_gameover inp s hover]
  unfold updateGameOver
  by_cases hgt : s.g.score > s.g.highScore
  · simp only [hgt, if_true, henter, NewGame, true_and]
    refine ⟨fun _ hw hlo hhi => ?_, fun hle => absurd hgt (not_lt.mpr hle), fun _ hw => ?_,
      fun _ hw => ?_⟩
    · simp only [saveHighScore, hw, loadHighScore, Atoi_Itoa _ hlo hhi]
      exact (max_eq_right (le_of_lt hgt)).symm
    · simp only [saveHighScore, hw, loadHighScore]
    · simp [saveHighScore, hw, loadHighScore, Atoi]
  · simp only [hgt, if_false, henter, if_true, NewGame, true_and]
    refine ⟨fun h => h.elim, fun hle hload => ?_, fun h => h.elim, fun h => h.elim⟩
    rw [hload]
    exact (max_eq_left hle).symm

/-- Witness for `C3_restart_reloads_best` at `overSys` with a write that succeeds. -/
theorem C3_restart_reloads_best_witness :
    overSys.g.gameState = "gameover" ∧ enterInput.enter = true ∧
      (Update enterInput overSys).g.highScore = 7 := by
  have h := C3_restart_reloads_best enterInput overSys (by decide) (by decide)
  exact ⟨by decide, by decide, by rw [h.2.2.1 (by decide) (by decide) (by decide) (by decide)]; decide⟩

/-! ## C4 - C6: floor, best score, jump -/

/-- Claim C4, as stated, fails: in `floorSys` integration puts the bird at exactly
`screenHeight - birdSize = 460`, and the tick ends in `"play"`. -/
theorem C4_floor_not_reached_at_460 :
    floorSys.g.gameState = "play" ∧
      floorSys.g.birdY + floorSys.g.velocity + gravity ≥ ((screenHeight - birdSize : Int) : ℚ) ∧
      (Update idleInput floorSys).g.gameState = "play" ∧
      (Update idleInput floorSys).g.gameState ≠ "gameover" := by
  refine ⟨by decide, ?_, by decide!, by decide!⟩
  norm_num [floorSys, gravity, screenHeight, birdSize]

/-- Claim C4, amended: for every game state in the Playing phase, if the bird's vertical
position after integration (`birdY + velocity + gravity`) is strictly greater than
`screenHeight - birdSize` (460), then the phase after that same `Update` tick is Over. -/
theorem C4_floor_triggers_game_over (inp : Input) (s : Sys)
    (hplay : s.g.gameState = "play")
    (hfloor : s.g.birdY + s.g.velocity + gravity > ((screenHeight - birdSize : Int) : ℚ)) :
    (Update inp s).g.gameState = "gameover" := by
  rw [Update_play inp s hplay]
  have h : s.g.birdY + (s.g.velocity + gravity) > ((screenHeight - birdSize : Int) : ℚ) := by
    rw [← add_assoc]; exact hfloor
  simp only [h, if_true, ite_self]

/-- Witness for `C4_floor_triggers_game_over` at `dyingSys`. -/
theorem C4_floor_triggers_game_over_witness :
    dyingSys.g.gameState = "play" ∧ (Update idleInput dyingSys).g.gameState = "gameover" :=
  ⟨by decide, C4_floor_triggers_game_over idleInput dyingSys (by decide)
    (by norm_num [dyingSys, gravity, screenHeight, birdSize])⟩

/-- Claim C5, as stated, fails: in `dyingSys` (score 3, best 1) the tick that moves the phase
from `"play"` to `"gameover"` leaves `highScore` at 1 and issues no save. -/
theorem C5_no_save_on_transition_tick :
    dyingSys.g.gameState = "play" ∧ (Update idleInput dyingSys).g.gameState = "gameover" ∧
      (Update idleInput dyingSys).g.score > (Update idleInput dyingSys).g.highScore ∧
      (Update idleInput dyingSys).g.highScore ≠ (Update idleInput dyingSys).g.score ∧
      (Update idleInput dyingSys).store.saved = [] := by
  decide!

/-- Claim C5, amended: the `Update` tick that moves the phase from Playing to Over leaves
`highScore` and the store untouched; if the score then exceeds the best, the next `Update`
tick issues a save of that score (writing its decimal text when the write succeeds) and,
unless that tick carries an Enter edge, ends with `highScore` equal to the score. -/
theorem C5_best_saved_on_next_tick (inp next : Input) (s : Sys)
    (hplay : s.g.gameState = "play")
    (hover : (Update inp s).g.gameState = "gameover")
    (hbest : (Update inp s).g.score > (Update inp s).g.highScore) :
    (Update inp s).g.highScore = s.g.highScore ∧ (Update inp s).store = s.store ∧
      (Update next (Update inp s)).store.saved = s.store.saved ++ [(Update inp s).g.score] ∧
      (next.write = WriteResult.ok →
        (Update next (Update inp s)).store.file = some (Itoa (Update inp s).g.score)) ∧
      (next.enter = false →
        (Update next (Update inp s)).g.highScore = (Update inp s).g.score) := by
  have hh : (Update inp s).g.highScore = s.g.highScore := by rw [Update_play inp s hplay]
  have hs : (Update inp s).store = s.store := by rw [Update_play inp s hplay]
  refine ⟨hh, hs, ?_⟩
  rw [Update_gameover next _ hover]
  unfold updateGameOver
  simp only [hbest, if_true, saveHighScore, hs]
  refine ⟨?_, ?_, ?_⟩
  · split <;> rfl
  · intro hw
    split <;> simp [hw]
  · intro he
    simp [he]

/-- Witness for `C5_best_saved_on_next_tick` at `dyingSys`. -/
theorem C5_best_saved_on_next_tick_witness :
    dyingSys.g.gameState = "play" ∧ (Update idleInput dyingSys).g.gameState = "gameover" ∧
      (Update idleInput (Update idleInput dyingSys)).store.saved = [3] ∧
      (Update idleInput (Update idleInput dyingSys)).g.highScore = 3 := by
  have h := C5_best_saved_on_next_tick idleInput idleInput dyingSys (by decide) (by decide!)
    (by decide!)
  refine ⟨by decide, by decide!, ?_, ?_⟩
  · rw [h.2.2.1]; decide!
  · rw [h.2.2.2.2 (by decide)]; decide!

/-- Claim C6, as stated, fails: in `ceilingSys` (bird at 0 with velocity -8) a tick with a
Space edge ends with velocity 0, not `jumpVelocity`. -/
theorem C6_jump_at_ceiling_gives_zero :
    ceilingSys.g.gameState = "play" ∧ jumpInput.space = true ∧
      (Update jumpInput ceilingSys).g.velocity = 0 ∧
      (Update jumpInput ceilingSys).g.velocity ≠ jumpVelocity := by
  decide!

/-- Claim C6, amended: for every game state in the Playing phase, whatever the prior velocity
and position, after one `Update` tick with a Space edge the velocity is exactly `jumpVelocity`
(-8) when integration does not drive the position below 0
(`birdY + velocity + gravity ≥ 0`); when it does, the ceiling clamp leaves velocity 0. -/
theorem C6_jump_overrides_velocity (inp : Input) (s : Sys)
    (hplay : s.g.gameState = "play") (hjump : inp.space = true) :
    (s.g.birdY + s.g.velocity + gravity ≥ 0 →
        (Update inp s).g.velocity = jumpVelocity ∧ (Update inp s).g.velocity = -8) ∧
      (s.g.birdY + s.g.velocity + gravity < 0 → (Update inp s).g.velocity = 0) := by
  rw [Update_play inp s hplay]
  simp only [hjump, if_true, add_assoc]
  constructor
  · intro h
    rw [if_neg (not_lt.mpr h)]
    exact ⟨rfl, rfl⟩
  · intro h
    rw [if_pos h]

/-- Witness for `C6_jump_overrides_velocity` at `floorSys`. -/
theorem C6_jump_overrides_velocity_witness :
    floorSys.g.gameState = "play" ∧ jumpInput.space = true ∧
      (Update jumpInput floorSys).g.velocity = -8 :=
  ⟨by decide, by decide,
    ((C6_jump_overrides_velocity jumpInput floorSys (by decide) (by decide)).1
      (by norm_num [floorSys, gravity])).2⟩

/-! ## C7 - C8: collision -/

/-- Claim C7, as stated, fails: in `grazingSys` the bird's box after the tick (y from 270.5 to
290.5) overlaps the lower barrier box of the advanced pipe (x from 100 to 160, y from 290 to
480) with positive area, and the tick ends in `"play"`. -/
theorem C7_real_overlap_without_game_over :
    grazingSys.g.gameState = "play" ∧
      (birdBox (Update idleInput grazingSys).g.birdY).overlaps
        (lowerBarrierBox (advancePipe { X := 102, GapY := 240, Passed := true })) = true ∧
      (Update idleInput grazingSys).g.gameState = "play" ∧
      (Update idleInput grazingSys).g.gameState ≠ "gameover" := by
  decide!

/-- Claim C7, amended: for every game state in the Playing phase, if after the tick's
integration and obstacle advance the bird's box and the upper or the lower barrier box of any
obstacle in the sequence overlap with positive area once every coordinate is truncated to an
integer (Go `int()`), then the phase after that tick is Over. -/
theorem C7_truncated_overlap_is_game_over (inp : Input) (s : Sys) (p : Pipe)
    (hplay : s.g.gameState = "play") (hp : p ∈ pipesAfterSpawn inp s.g)
    (hhit :
      (birdBox (Update inp s).g.birdY).truncated.overlaps
          (upperBarrierBox (advancePipe p)).truncated = true ∨
        (birdBox (Update inp s).g.birdY).truncated.overlaps
          (lowerBarrierBox (advancePipe p)).truncated = true) :
    (Update inp s).g.gameState = "gameover" := by
  rw [Update_play inp s hplay] at hhit ⊢
  have hc : (pipesAfterSpawn inp s.g).any (collides (birdYAfter s.g)) = true :=
    List.any_eq_true.mpr ⟨p, hp, collides_of_truncated_overlap _ _ hhit⟩
  simp only [hc, if_true]

/-- Witness for `C7_truncated_overlap_is_game_over` at `crashSys`. -/
theorem C7_truncated_overlap_is_game_over_witness :
    crashSys.g.gameState = "play" ∧ (Update idleInput crashSys).g.gameState = "gameover" :=
  ⟨by decide,
    C7_truncated_overlap_is_game_over idleInput crashSys { X := 102, GapY := 240, Passed := true }
      (by decide) (by decide!) (by decide!)⟩

/-- Claim C8: for every game state in the Playing phase whose obstacles all have gap centre
180, 240 or 300, if after the tick's integration the bird is not past the floor
(`birdY + velocity + gravity ≤ screenHeight - birdSize`) and the bird's box overlaps, in the
real-valued coordinates, neither barrier box of any obstacle after the advance, then the
phase after the tick is still Playing. -/
theorem C8_no_false_collision (inp : Input) (s : Sys)
    (hplay : s.g.gameState = "play")
    (hgap : ∀ p ∈ s.g.pipes, p.GapY = 180 ∨ p.GapY = 240 ∨ p.GapY = 300)
    (hfloor : s.g.birdY + s.g.velocity + gravity ≤ ((screenHeight - birdSize : Int) : ℚ))
    (hclear : ∀ p ∈ s.g.pipes,
      (birdBox (Update inp s).g.birdY).overlaps (upperBarrierBox (advancePipe p)) = false ∧
        (birdBox (Update inp s).g.birdY).overlaps (lowerBarrierBox (advancePipe p)) = false) :
    (Update inp s).g.gameState = "play" := by
  rw [Update_play inp s hplay] at hclear ⊢
  have hf : ¬ s.g.birdY + (s.g.velocity + gravity) > ((screenHeight - birdSize : Int) : ℚ) := by
    rw [← add_assoc]; exact not_lt.mpr hfloor
  have hold : ∀ p ∈ s.g.pipes, collides (birdYAfter s.g) p = false := by
    intro p hp
    rw [Bool.eq_false_iff]
    intro hc
    have := real_overlap_of_collides _ p (hgap p hp) hc
    rw [(hclear p hp).1, (hclear p hp).2] at this
    simp at this
  have hc : (pipesAfterSpawn inp s.g).any (collides (birdYAfter s.g)) = false := by
    rw [List.any_eq_false]
    intro p hp
    unfold pipesAfterSpawn at hp
    split at hp
    · rcases List.mem_append.mp hp with hp | hp
      · simp [hold p hp]
      · rw [List.mem_singleton] at hp
        have : collides (birdYAfter s.g) p = false :=
          not_collides_of_far_right _ p (by rw [hp]; norm_num [screenWidth])
        simp [this]
    · simp [hold p hp]
  simp only [hc, hf, if_false, Bool.false_eq_true]

/-- Witness for `C8_no_false_collision` at `clearSys`. -/
theorem C8_no_false_collision_witness :
    clearSys.g.gameState = "play" ∧ (Update idleInput clearSys).g.gameState = "play" :=
  ⟨by decide,
    C8_no_false_collision idleInput clearSys (by decide) (by decide!)
      (by norm_num [clearSys, gravity, screenHeight, birdSize]) (by decide!)⟩

/-! ## C9 - C10: scoring -/

/-- Claim C9, as stated, fails: in `scoringSys` the unscored pipe stands at X = 128 after the
advance, its trailing edge at 188 is still right of the bird's column 160, and the tick marks
it scored and raises the score by one. -/
theorem C9_scored_before_trailing_edge_passes :
    scoringSys.g.gameState = "play" ∧
      scoringSys.g.pipes = [{ X := 130, GapY := 240, Passed := false }] ∧
      (Update idleInput scoringSys).g.pipes = [{ X := 128, GapY := 240, Passed := true }] ∧
      (Update idleInput scoringSys).g.score = scoringSys.g.score + 1 ∧
      ¬ ((128 : ℚ) + (pipeWidth : ℚ) < (screenWidth : ℚ) / 2) := by
  decide!

/-- Claim C9, amended: in a Playing tick an obstacle not yet marked scored is marked scored
and awards its point exactly when its horizontal centre (`X + pipeWidth/2`, after the tick's
advance by 2) has passed the bird's column `screenWidth/2`, that is when `X < 130` after the
advance: the sequence after the tick is the pruned sequence of advanced obstacles, and the
score rises by the number of obstacles that award a point. -/
theorem C9_scored_when_centre_passes (inp : Input) (s : Sys) (hplay : s.g.gameState = "play") :
    (Update inp s).g.pipes = filterPipes ((pipesAfterSpawn inp s.g).map advancePipe) ∧
      (Update inp s).g.score = s.g.score + ((pipesAfterSpawn inp s.g).countP awardsPoint : Nat) ∧
      (∀ p : Pipe, (advancePipe p).X = p.X - 2 ∧ (advancePipe p).GapY = p.GapY) ∧
      (∀ p : Pipe, p.Passed = false →
        ((advancePipe p).Passed = true ↔ p.X - 2 + (pipeWidth : ℚ) / 2 < (screenWidth : ℚ) / 2) ∧
        (awardsPoint p = true ↔ p.X - 2 + (pipeWidth : ℚ) / 2 < (screenWidth : ℚ) / 2) ∧
        (p.X - 2 + (pipeWidth : ℚ) / 2 < (screenWidth : ℚ) / 2 ↔ p.X - 2 < 130)) := by
  rw [Update_play inp s hplay]
  refine ⟨rfl, rfl, fun p => ⟨rfl, rfl⟩, fun p hp => ⟨?_, ?_, ?_⟩⟩
  · simp [advancePipe, hp]
  · simp [awardsPoint, hp]
  · norm_num [pipeWidth, screenWidth]
    constructor <;> intro h <;> linarith

/-- Witness for `C9_scored_when_centre_passes` at `scoringSys`. -/
theorem C9_scored_when_centre_passes_witness :
    scoringSys.g.gameState = "play" ∧
      (Update idleInput scoringSys).g.score =
        scoringSys.g.score + ((pipesAfterSpawn idleInput scoringSys.g).countP awardsPoint : Nat) :=
  ⟨by decide, (C9_scored_when_centre_passes idleInput scoringSys (by decide)).2.1⟩

/-- Claim C10, as stated, fails: `debtSys` is a Playing-phase state with a single unscored
obstacle and score -5; its bird falls through the floor, the next tick restarts the game, no
obstacle is spawned, and the score has risen from -5 to 0. -/
theorem C10_restart_lifts_negative_score :
    debtSys.g.gameState = "play" ∧
      debtSys.g.pipes = [{ X := 300, GapY := 240, Passed := false }] ∧
      noSpawnDuring [idleInput, enterInput] debtSys = true ∧
      (runTicks [idleInput, enterInput] debtSys).g.score = 0 ∧
      ¬ ((runTicks [idleInput, enterInput] debtSys).g.score ≤ debtSys.g.score + 1) := by
  decide!

/-- Claim C10, amended: from a Playing-phase state with a non-negative score, as the score is
in every state reachable from `NewGame`, whose sequence holds a single obstacle, over any
number of consecutive `Update` ticks in which no obstacle is spawned, the score rises by at
most 1 in total if the obstacle is unscored; if its `Passed` flag is set, the flag stays set
and the score does not rise at all.  In general one Playing tick raises the score by exactly
the number of obstacles that were unscored before the tick and whose centre is left of the
bird's column after the advance. -/
theorem C10_single_point_scoring (inps : List Input) (s : Sys) (p : Pipe)
    (hplay : s.g.gameState = "play") (hsingle : s.g.pipes = [p]) (hscore : 0 ≤ s.g.score)
    (hno : noSpawnDuring inps s = true) :
    (p.Passed = false → (runTicks inps s).g.score ≤ s.g.score + 1) ∧
      (p.Passed = true →
        (runTicks inps s).g.score ≤ s.g.score ∧
          ∀ q ∈ (runTicks inps s).g.pipes, q.Passed = true) ∧
      (∀ (inp : Input) (t : Sys), t.g.gameState = "play" →
        (Update inp t).g.score = t.g.score + (t.g.pipes.countP awardsPoint : Nat)) ∧
      (∀ q : Pipe, awardsPoint q = true ↔
        (q.Passed = false ∧ q.X - 2 + (pipeWidth : ℚ) / 2 < (screenWidth : ℚ) / 2)) ∧
      (∀ (st : Store) (run : List Input), 0 ≤ (runTicks run (initialSys st)).g.score) := by
  obtain ⟨_, hsum, hkeep⟩ := runTicks_noSpawn_invariant inps s hno hscore
  have _ := hplay
  refine ⟨fun hp => ?_, fun hp => ⟨?_, ?_⟩, fun inp t ht => ?_, awardsPoint_iff,
    score_nonneg_reachable⟩
  · have hu : unscored s.g = 1 := by simp [unscored, hsingle, hp]
    rw [hu] at hsum
    have : (0 : Int) ≤ (unscored (runTicks inps s).g : Nat) := Int.ofNat_nonneg _
    push_cast at hsum
    omega
  · have hu : unscored s.g = 0 := by simp [unscored, hsingle, hp]
    rw [hu] at hsum
    have : (0 : Int) ≤ (unscored (runTicks inps s).g : Nat) := Int.ofNat_nonneg _
    push_cast at hsum
    omega
  · exact hkeep (by simp [hsingle, hp])
  · rw [Update_play inp t ht, countP_awardsPoint_spawn]

/-- Witness for `C10_single_point_scoring`: three idle ticks from `scoringSys`. -/
theorem C10_single_point_scoring_witness :
    scoringSys.g.gameState = "play" ∧
      noSpawnDuring [idleInput, idleInput, idleInput] scoringSys = true ∧
      (runTicks [idleInput, idleInput, idleInput] scoringSys).g.score ≤ scoringSys.g.score + 1 :=
  ⟨by decide, by decide!,
    (C10_single_point_scoring [idleInput, idleInput, idleInput] scoringSys
      { X := 130, GapY := 240, Passed := false } (by decide) (by decide!) (by decide)
      (by decide!)).1 (by decide)⟩

/-! ## C11 - C12: integration and the ceiling -/

/-- Claim C11, as stated, fails: in `ceilingSys` (bird at 0 with velocity -8) a tick without a
Space edge ends with velocity 0, not `velocity + gravity = -7.5`. -/
theorem C11_velocity_reset_at_ceiling :
    ceilingSys.g.gameState = "play" ∧ idleInput.space = false ∧
      (Update idleInput ceilingSys).g.velocity = 0 ∧
      (Update idleInput ceilingSys).g.velocity ≠ ceilingSys.g.velocity + gravity := by
  decide!

/-- Claim C11, amended: for every game state in the Playing phase and one `Update` tick with
no Space edge, when `birdY + velocity + gravity ≥ 0` the velocity after the tick is
`velocity + gravity` and the position after the tick is `birdY + velocity + gravity`; in
particular from velocity 0 and `birdY ≥ 0` the velocity becomes exactly 0.5 and the position
increases by exactly 0.5. -/
theorem C11_gravity_integration (inp : Input) (s : Sys)
    (hplay : s.g.gameState = "play") (hidle : inp.space = false) :
    (s.g.birdY + s.g.velocity + gravity ≥ 0 →
        (Update inp s).g.velocity = s.g.velocity + gravity ∧
          (Update inp s).g.birdY = s.g.birdY + s.g.velocity + gravity) ∧
      (s.g.velocity = 0 → s.g.birdY ≥ 0 →
        (Update inp s).g.velocity = 1 / 2 ∧ (Update inp s).g.birdY = s.g.birdY + 1 / 2) := by
  rw [Update_play inp s hplay]
  simp only [hidle, birdYAfter, Bool.false_eq_true, if_false]
  constructor
  · intro h
    have h2 : ¬ s.g.birdY + (s.g.velocity + gravity) < 0 := by
      rw [← add_assoc]; exact not_lt.mpr h
    rw [if_neg h2, if_neg h2, add_assoc]
    exact ⟨rfl, rfl⟩
  · intro hv hy
    have h2 : ¬ s.g.birdY + (s.g.velocity + gravity) < 0 := by
      rw [hv]; norm_num [gravity]; linarith
    rw [if_neg h2, if_neg h2, hv]
    norm_num [gravity]

/-- Witness for `C11_gravity_integration` at `clearSys` (bird at 240, velocity 0). -/
theorem C11_gravity_integration_witness :
    clearSys.g.gameState = "play" ∧ idleInput.space = false ∧
      (Update idleInput clearSys).g.velocity = 1 / 2 ∧
      (Update idleInput clearSys).g.birdY = clearSys.g.birdY + 1 / 2 :=
  ⟨by decide, by decide,
    (C11_gravity_integration idleInput clearSys (by decide) (by decide)).2 (by decide!)
      (by decide!)⟩

/-- Claim C12: for every game state in the Playing phase, with or without a Space edge, if
integration drives the position below 0 (`birdY + velocity + gravity < 0`) then after that
`Update` tick `birdY` is exactly 0 and the velocity is exactly 0; consequently `birdY ≥ 0`
holds after every Playing tick. -/
theorem C12_ceiling_clamp (inp : Input) (s : Sys) (hplay : s.g.gameState = "play") :
    (s.g.birdY + s.g.velocity + gravity < 0 →
        (Update inp s).g.birdY = 0 ∧ (Update inp s).g.velocity = 0) ∧
      0 ≤ (Update inp s).g.birdY := by
  rw [Update_play inp s hplay]
  simp only [birdYAfter, add_assoc]
  constructor
  · intro h
    rw [if_pos h, if_pos h]
    exact ⟨rfl, rfl⟩
  · split
    · exact le_refl _
    · next h => exact not_lt.mp h

/-- Witness for `C12_ceiling_clamp` at `ceilingSys` with a Space edge. -/
theorem C12_ceiling_clamp_witness :
    ceilingSys.g.gameState = "play" ∧
      (Update jumpInput ceilingSys).g.birdY = 0 ∧ (Update jumpInput ceilingSys).g.velocity = 0 :=
  ⟨by decide, (C12_ceiling_clamp jumpInput ceilingSys (by decide)).1 (by decide!)⟩

/-! ## C13 - C15: pruning and spawning -/

/-- Claim C13, as stated, fails: in `pruneSys` the pipe stands at X = -60 after the advance,
its right edge `X + pipeWidth` is 0, not strictly negative, and the tick removes it. -/
theorem C13_pipe_on_border_is_removed :
    pruneSys.g.gameState = "play" ∧
      pruneSys.g.pipes = [{ X := -58, GapY := 240, Passed := true }] ∧
      (advancePipe { X := -58, GapY := 240, Passed := true }).X + (pipeWidth : ℚ) ≥ 0 ∧
      ¬ ((advancePipe { X := -58, GapY := 240, Passed := true }).X + (pipeWidth : ℚ) < 0) ∧
      (Update idleInput pruneSys).g.pipes = [] := by
  decide!

/-- Claim C13, amended: after a Playing tick the obstacle sequence consists, in their original
order, of exactly those obstacles (including one spawned this tick) whose right edge after
the advance is strictly positive, `X + pipeWidth > 0`; an obstacle is removed exactly when
`X + pipeWidth ≤ 0`. -/
theorem C13_pruning_keeps_positive_right_edge (inp : Input) (s : Sys)
    (hplay : s.g.gameState = "play") :
    (Update inp s).g.pipes =
        ((pipesAfterSpawn inp s.g).map advancePipe).filter
          (fun q => decide (q.X + (pipeWidth : ℚ) > 0)) ∧
      (∀ q ∈ (pipesAfterSpawn inp s.g).map advancePipe,
        (q ∈ (Update inp s).g.pipes ↔ q.X + (pipeWidth : ℚ) > 0) ∧
        (q ∉ (Update inp s).g.pipes ↔ q.X + (pipeWidth : ℚ) ≤ 0)) ∧
      (∀ p : Pipe, (advancePipe p).X = p.X - 2) ∧
      (pipesAfterSpawn inp s.g = s.g.pipes ∨
        ∃ q : Pipe, pipesAfterSpawn inp s.g = s.g.pipes ++ [q]) := by
  rw [Update_play inp s hplay]
  refine ⟨filterPipes_eq_filter _, fun q hq => ?_, fun _ => rfl, ?_⟩
  · have hm : q ∈ filterPipes ((pipesAfterSpawn inp s.g).map advancePipe) ↔
        q.X + (pipeWidth : ℚ) > 0 := by
      rw [mem_filterPipes]
      exact ⟨fun h => h.2, fun h => ⟨hq, h⟩⟩
    exact ⟨hm, by rw [hm, not_lt]⟩
  · unfold pipesAfterSpawn
    split
    · exact Or.inr ⟨_, rfl⟩
    · exact Or.inl rfl

/-- Witness for `C13_pruning_keeps_positive_right_edge` at `clearSys`. -/
theorem C13_pruning_keeps_positive_right_edge_witness :
    clearSys.g.gameState = "play" ∧
      (Update idleInput clearSys).g.pipes =
        ((pipesAfterSpawn idleInput clearSys.g).map advancePipe).filter
          (fun q => decide (q.X + (pipeWidth : ℚ) > 0)) :=
  ⟨by decide, (C13_pruning_keeps_positive_right_edge idleInput clearSys (by decide)).1⟩

/-- Claim C14: for every list of obstacles `filterPipes` returns a list containing no obstacle
with `X + pipeWidth < 0`, and therefore after every Playing tick no obstacle in the game's
sequence has a trailing edge position less than zero. -/
theorem C14_no_obstacle_left_of_screen (ps : List Pipe) (inp : Input) (s : Sys)
    (hplay : s.g.gameState = "play") :
    (∀ q ∈ filterPipes ps, ¬ (q.X + (pipeWidth : ℚ) < 0)) ∧
      (∀ q ∈ (Update inp s).g.pipes, ¬ (q.X + (pipeWidth : ℚ) < 0)) := by
  have hf : ∀ l : List Pipe, ∀ q ∈ filterPipes l, ¬ (q.X + (pipeWidth : ℚ) < 0) :=
    fun l q hq => not_lt.mpr (le_of_lt (mem_filterPipes.mp hq).2)
  refine ⟨hf ps, ?_⟩
  rw [Update_play inp s hplay]
  exact hf _

/-- Witness for `C14_no_obstacle_left_of_screen` at `clearSys` and a list with one pipe off
screen. -/
theorem C14_no_obstacle_left_of_screen_witness :
    clearSys.g.gameState = "play" ∧
      (∀ q ∈ filterPipes [{ X := -70, GapY := 180, Passed := true },
          { X := 10, GapY := 240, Passed := false }], ¬ (q.X + (pipeWidth : ℚ) < 0)) ∧
      (∀ q ∈ (Update idleInput clearSys).g.pipes, ¬ (q.X + (pipeWidth : ℚ) < 0)) :=
  ⟨by decide, C14_no_obstacle_left_of_screen _ idleInput clearSys (by decide)⟩

/-- Claim C15: in a Playing tick exactly one new obstacle is appended at the tail of the
sequence when the tick counter after its increment is a multiple of 180, and none otherwise;
the appended obstacle is created unscored at `X = screenWidth` (and advanced by 2 in the same
tick) with gap centre `screenHeight/2 + 60*(r - 1)` for the random draw `r` in {0, 1, 2}, so
its gap centre is 180, 240 or 300; no tick changes the gap centre of an obstacle. -/
theorem C15_obstacle_generation (inp : Input) (s : Sys) (hplay : s.g.gameState = "play") :
    (Update inp s).g.frameCount = s.g.frameCount + 1 ∧
      ((180 : Int) ∣ (Update inp s).g.frameCount →
        (Update inp s).g.pipes =
          filterPipes (s.g.pipes.map advancePipe) ++
            [{ X := (screenWidth : ℚ) - 2
               GapY := (screenHeight : ℚ) / 2 + 60 * (((inp.rnd.val : Int) : ℚ) - 1)
               Passed := false }] ∧
        advancePipe
            { X := (screenWidth : ℚ)
              GapY := (screenHeight : ℚ) / 2 + 60 * (((inp.rnd.val : Int) : ℚ) - 1)
              Passed := false } =
          { X := (screenWidth : ℚ) - 2
            GapY := (screenHeight : ℚ) / 2 + 60 * (((inp.rnd.val : Int) : ℚ) - 1)
            Passed := false }) ∧
      (¬ (180 : Int) ∣ (Update inp s).g.frameCount →
        (Update inp s).g.pipes = filterPipes (s.g.pipes.map advancePipe)) ∧
      ((screenHeight : ℚ) / 2 + 60 * (((inp.rnd.val : Int) : ℚ) - 1) = 180 ∨
        (screenHeight : ℚ) / 2 + 60 * (((inp.rnd.val : Int) : ℚ) - 1) = 240 ∨
        (screenHeight : ℚ) / 2 + 60 * (((inp.rnd.val : Int) : ℚ) - 1) = 300) ∧
      (∀ p : Pipe, (advancePipe p).GapY = p.GapY) ∧
      (∀ (next : Input) (t : Sys), t.g.gameState ≠ "play" →
        List.Sublist (Update next t).g.pipes t.g.pipes) := by
  obtain ⟨hgap, hcases⟩ := spawn_gap_cases inp.rnd
  have hfc : (Update inp s).g.frameCount = s.g.frameCount + 1 := by
    rw [Update_play inp s hplay]
  have hP : ¬ ((screenWidth : ℚ) - 2 + (pipeWidth : ℚ) / 2 < (screenWidth : ℚ) / 2) := by
    norm_num [screenWidth, pipeWidth]
  refine ⟨hfc, fun hdiv => ⟨?_, ?_⟩, fun hdiv => ?_, ?_, fun _ => rfl, fun next t ht => ?_⟩
  · rw [hfc] at hdiv
    have hmod : (s.g.frameCount + 1) % 180 = 0 := Int.emod_eq_zero_of_dvd hdiv
    rw [Update_play inp s hplay]
    simp only [pipesAfterSpawn, if_pos hmod]
    rw [filterPipes_spawn, hgap]
  · simp [advancePipe, hP]
  · rw [hfc] at hdiv
    have hmod : ¬ (s.g.frameCount + 1) % 180 = 0 := fun h => hdiv (Int.dvd_of_emod_eq_zero h)
    rw [Update_play inp s hplay]
    simp only [pipesAfterSpawn, if_neg hmod]
  · rw [← hgap]; exact hcases
  · by_cases hover : t.g.gameState = "gameover"
    · rw [Update_gameover next t hover]
      unfold updateGameOver
      split <;> split <;> simp [NewGame]
    · by_cases hstart : t.g.gameState = "start"
      · unfold Update
        simp only [hstart, if_true]
        split <;> simp
      · unfold Update
        simp [hstart, ht, hover]

/-- Witness for `C15_obstacle_generation` at `spawnSys`, whose tick counter reaches 180. -/
theorem C15_obstacle_generation_witness :
    spawnSys.g.gameState = "play" ∧ (Update idleInput spawnSys).g.frameCount = 180 ∧
      (Update idleInput spawnSys).g.pipes =
        [{ X := 138, GapY := 300, Passed := false }, { X := 318, GapY := 240, Passed := false }] := by
  have h := C15_obstacle_generation idleInput spawnSys (by decide)
  refine ⟨by decide, by decide!, ?_⟩
  rw [(h.2.1 (by decide!)).1]
  decide!

/-! ## C16 - C17: start screen, persistence -/

/-- Claim C16, as stated, fails: from `startSys` a tick with an Enter edge moves the tick
counter from 10 to 11. -/
theorem C16_start_tick_counts :
    startSys.g.gameState = "start" ∧ enterInput.enter = true ∧
      (Update enterInput startSys).g.frameCount = 11 ∧
      (Update enterInput startSys).g.frameCount ≠ startSys.g.frameCount := by
  decide!

/-- Claim C16, amended: for every game state in the Start phase, one `Update` tick with an
Enter edge sets the phase to Playing, adds one to the tick counter (as every tick does) and
leaves every other field (`birdY`, velocity, obstacle sequence, score, `highScore`) and the
high-score store unchanged. -/
theorem C16_start_to_playing (inp : Input) (s : Sys)
    (hstart : s.g.gameState = "start") (henter : inp.enter = true) :
    Update inp s =
      { g := { s.g with gameState := "play", frameCount := s.g.frameCount + 1 }
        store := s.store } ∧
      (Update inp s).g.gameState = "play" ∧
      (Update inp s).g.frameCount = s.g.frameCount + 1 ∧
      (Update inp s).g.birdY = s.g.birdY ∧ (Update inp s).g.velocity = s.g.velocity ∧
      (Update inp s).g.pipes = s.g.pipes ∧ (Update inp s).g.score = s.g.score ∧
      (Update inp s).g.highScore = s.g.highScore ∧ (Update inp s).store = s.store := by
  have h : Update inp s =
      { g := { s.g with gameState := "play", frameCount := s.g.frameCount + 1 }
        store := s.store } := by
    simp [Update, hstart, henter]
  rw [h]
  exact ⟨rfl, rfl, rfl, rfl, rfl, rfl, rfl, rfl, rfl⟩

/-- Witness for `C16_start_to_playing` at `startSys`. -/
theorem C16_start_to_playing_witness :
    startSys.g.gameState = "start" ∧ enterInput.enter = true ∧
      (Update enterInput startSys).g.gameState = "play" :=
  ⟨by decide, by decide, (C16_start_to_playing enterInput startSys (by decide) (by decide)).2.1⟩

/-- Claim C17: with the store as the optional text content of the high-score file, for every
Go `int` `n` (a 64-bit integer) a load performed after a successful `saveHighScore n` returns
`n`, and a load on an absent file returns 0. -/
theorem C17_persistence_round_trip (n : Int) (st : Store)
    (hlo : -(2 : Int) ^ 63 ≤ n) (hhi : n < (2 : Int) ^ 63) :
    loadHighScore (saveHighScore WriteResult.ok n st) = n ∧
      (saveHighScore WriteResult.ok n st).file = some (Itoa n) ∧ Atoi (Itoa n) = some n ∧
      ∀ saved : List Int, loadHighScore { file := none, saved := saved } = 0 := by
  have h := Atoi_Itoa n hlo hhi
  refine ⟨?_, rfl, h, fun _ => rfl⟩
  simp [loadHighScore, saveHighScore, h]

/-- Witness for `C17_persistence_round_trip`: saving 42 on an absent file. -/
theorem C17_persistence_round_trip_witness :
    loadHighScore (saveHighScore WriteResult.ok 42 { file := none, saved := [] }) = 42 :=
  (C17_persistence_round_trip 42 { file := none, saved := [] } (by decide) (by decide)).1

/-! ## C18 - C19: no short-circuit, order of the sequence -/

/-- Claim C18: the obstacle sequence and the score after a Playing tick are a function of the
obstacle sequence, the score, the tick counter and the random draw before the tick only: two
Playing states that agree on these (and may differ in `birdY`, velocity, the key edges and
everything else, so that one run dies on the floor or on a barrier and the other does not)
yield the same obstacle sequence and the same score after the tick. -/
theorem C18_obstacles_ignore_death (inp₁ inp₂ : Input) (s₁ s₂ : Sys)
    (hplay₁ : s₁.g.gameState = "play") (hplay₂ : s₂.g.gameState = "play")
    (hpipes : s₁.g.pipes = s₂.g.pipes) (hscore : s₁.g.score = s₂.g.score)
    (hframe : s₁.g.frameCount = s₂.g.frameCount) (hrnd : inp₁.rnd = inp₂.rnd) :
    (Update inp₁ s₁).g.pipes = (Update inp₂ s₂).g.pipes ∧
      (Update inp₁ s₁).g.score = (Update inp₂ s₂).g.score := by
  rw [Update_play inp₁ s₁ hplay₁, Update_play inp₂ s₂ hplay₂]
  have hsp : pipesAfterSpawn inp₁ s₁.g = pipesAfterSpawn inp₂ s₂.g := by
    simp only [pipesAfterSpawn, hpipes, hframe, hrnd]
  simp only [hsp, hscore, and_self]

/-- Witness for `C18_obstacles_ignore_death`: `crashSys` dies on the barrier, `clearSys`
flies on, and both end the tick with the same obstacles and score. -/
theorem C18_obstacles_ignore_death_witness :
    (Update idleInput crashSys).g.gameState = "gameover" ∧
      (Update jumpInput clearSys).g.gameState = "play" ∧
      (Update idleInput crashSys).g.pipes = (Update jumpInput clearSys).g.pipes ∧
      (Update idleInput crashSys).g.score = (Update jumpInput clearSys).g.score :=
  ⟨by decide!, by decide!,
    C18_obstacles_ignore_death idleInput jumpInput crashSys clearSys (by decide) (by decide)
      (by decide!) (by decide) (by decide) (by decide)⟩

/-- Claim C19: in every state reachable from `NewGame` by any sequence of `Update` ticks (any
key edges, any random draws, any loaded best score) the obstacle sequence is strictly
increasing in `X` from head to tail; hence in a Playing tick from such a state the obstacles
removed by pruning form a prefix of the advanced sequence and a new obstacle only appears at
the tail, and a tick in another phase keeps the sequence or empties it. -/
theorem C19_sequence_ordered (st : Store) (inps : List Input) (inp : Input) :
    (runTicks inps (initialSys st)).g.pipes.Pairwise (fun a b => a.X < b.X) ∧
      ((runTicks inps (initialSys st)).g.gameState = "play" →
        ∃ k : Nat,
          (Update inp (runTicks inps (initialSys st))).g.pipes =
              ((runTicks inps (initialSys st)).g.pipes.map advancePipe).drop k ++
                (if ((runTicks inps (initialSys st)).g.frameCount + 1) % 180 = 0 then
                  [{ X := (screenWidth : ℚ) - 2
                     GapY := (screenHeight : ℚ) / 2 + 60 * (((inp.rnd.val : Int) : ℚ) - 1)
                     Passed := false }]
                else []) ∧
            ∀ q ∈ ((runTicks inps (initialSys st)).g.pipes.map advancePipe).take k,
              q.X + (pipeWidth : ℚ) ≤ 0) ∧
      ((runTicks inps (initialSys st)).g.gameState ≠ "play" →
        (Update inp (runTicks inps (initialSys st))).g.pipes =
            (runTicks inps (initialSys st)).g.pipes ∨
          (Update inp (runTicks inps (initialSys st))).g.pipes = []) := by
  have hord := pipesOrdered_runTicks inps (initialSys st) (pipesOrdered_initialSys st)
  generalize runTicks inps (initialSys st) = s at hord ⊢
  refine ⟨hord.1, fun hplay => ?_, fun hplay => ?_⟩
  · have hmap : (s.g.pipes.map advancePipe).Pairwise (fun a b => a.X < b.X) :=
      hord.1.map advancePipe (fun a b hab => by
        show a.X - 2 < b.X - 2
        linarith)
    obtain ⟨k, hk, hk2⟩ := filterPipes_eq_drop _ hmap
    refine ⟨k, ?_, hk2⟩
    rw [Update_play inp s hplay]
    by_cases hmod : (s.g.frameCount + 1) % 180 = 0
    · simp only [pipesAfterSpawn, if_pos hmod]
      rw [filterPipes_spawn, hk, (spawn_gap_cases inp.rnd).1]
    · simp only [pipesAfterSpawn, if_neg hmod, hk, List.append_nil]
  · by_cases hover : s.g.gameState = "gameover"
    · rw [Update_gameover inp s hover]
      unfold updateGameOver
      split <;> split <;> simp [NewGame]
    · by_cases hstart : s.g.gameState = "start"
      · unfold Update
        simp only [hstart, if_true]
        split <;> simp
      · unfold Update
        simp [hstart, hplay, hover]

/-- Witness for `C19_sequence_ordered`: start-up on an empty store, Enter, then a jump. -/
theorem C19_sequence_ordered_witness :
    (runTicks [enterInput, jumpInput] (initialSys { file := none, saved := [] })).g.gameState =
        "play" ∧
      (runTicks [enterInput, jumpInput]
        (initialSys { file := none, saved := [] })).g.pipes.Pairwise (fun a b => a.X < b.X) :=
  ⟨by decide!,
    (C19_sequence_ordered { file := none, saved := [] } [enterInput, jumpInput] idleInput).1⟩

/-! ## C20: the frozen Over phase -/

/-- Claim C20: for every game state in the Over phase, one `Update` tick without an Enter
edge (with or without a Space edge) leaves the phase, `birdY`, the velocity, the obstacle
sequence and the score unchanged and sets `highScore` to `max highScore score`; a save of the
score is issued exactly when the score exceeded `highScore` before the tick, and nothing else
is issued; the tick counter goes up by one. -/
theorem C20_over_phase_frozen (inp : Input) (s : Sys)
    (hover : s.g.gameState = "gameover") (hidle : inp.enter = false) :
    (Update inp s).g.gameState = "gameover" ∧
      (Update inp s).g.birdY = s.g.birdY ∧ (Update inp s).g.velocity = s.g.velocity ∧
      (Update inp s).g.pipes = s.g.pipes ∧ (Update inp s).g.score = s.g.score ∧
      (Update inp s).g.highScore = max s.g.highScore s.g.score ∧
      (Update inp s).store.saved =
        s.store.saved ++ (if s.g.score > s.g.highScore then [s.g.score] else []) ∧
      (s.g.score > s.g.highScore →
        (Update inp s).store = saveHighScore inp.write s.g.score s.store) ∧
      (¬ s.g.score > s.g.highScore → (Update inp s).store = s.store) ∧
      (Update inp s).g.frameCount = s.g.frameCount + 1 := by
  rw [Update_gameover inp s hover]
  unfold updateGameOver
  by_cases hgt : s.g.score > s.g.highScore
  · simp [hgt, hidle, saveHighScore, hover, max_eq_right (le_of_lt hgt)]
  · simp [hgt, hidle, hover, max_eq_left (not_lt.mp hgt)]

/-- Witness for `C20_over_phase_frozen` at `overSys` (score 7, best 5). -/
theorem C20_over_phase_frozen_witness :
    overSys.g.gameState = "gameover" ∧ idleInput.enter = false ∧
      (Update idleInput overSys).g.highScore = max overSys.g.highScore overSys.g.score ∧
      (Update idleInput overSys).g.pipes = overSys.g.pipes :=
  ⟨by decide, by decide,
    (C20_over_phase_frozen idleInput overSys (by decide) (by decide)).2.2.2.2.2.1,
    (C20_over_phase_frozen idleInput overSys (by decide) (by decide)).2.2.2.1⟩

end FlappyBird
